import Mathlib

/-!
# Shared MIDI input devices (src/core/MidiInterface.cpp)

A shallow embedding of the device-sharing part of `MidiInterface.cpp`:
the process-wide registry `MidiIO::midiInMap`, the per-device multiplexer
`MidiInWrapper` and the handle operations `MidiIO::openDevice`,
`MidiIO::close` and `MidiIO::getMessage`.

Conventions of the embedding:

* `std::unordered_map` is a partial function (`none` = key absent); `operator[]`
  is modelled with its default-inserting behaviour (`umAt` / `umTouch`).
* `MidiInWrapper*` is `Option Nat`: `none` is the null pointer, `some a` the
  object at heap address `a`. Objects are never deleted by the source, so the
  heap only grows.
* Dereferencing a null pointer and `front()` of an empty list are undefined
  behaviour in the source; the operations return `none` there.
* A time stamp (`double`) is only copied by this code, never computed with; it
  is an `Int` number of ticks.
-/

namespace Rack

/-- Raw bytes of one message (`std::vector<unsigned char>`); bytes are only copied. -/
abbrev Msg := List Nat

/-- Time stamp of a message (`double` in the source, only ever copied). -/
abbrev Stamp := Int

/-- A `MidiInWrapper*`: `none` is the null pointer. -/
abbrev Ptr := Option Nat

/-! ## `std::unordered_map` -/

/-- Map after `m[k] = v`. -/
def umInsert {κ α : Type} [DecidableEq κ] (m : κ → Option α) (k : κ) (v : α) : κ → Option α :=
  fun x => if x = k then some v else m x

/-- Map after `m.erase(k)`. -/
def umErase {κ α : Type} [DecidableEq κ] (m : κ → Option α) (k : κ) : κ → Option α :=
  fun x => if x = k then none else m x

/-- Value that the expression `m[k]` denotes: the stored value, or the
value-initialised default `d` when the key is absent. -/
def umAt {κ α : Type} (m : κ → Option α) (k : κ) (d : α) : α :=
  match m k with
  | some v => v
  | none => d

/-- Map after evaluating `m[k]`: an absent key is inserted with the default `d`. -/
def umTouch {κ α : Type} [DecidableEq κ] (m : κ → Option α) (k : κ) (d : α) : κ → Option α :=
  match m k with
  | some _ => m
  | none => umInsert m k d

/-! ## The multiplexer `MidiInWrapper : RtMidiIn` -/

/-- State of one `MidiInWrapper` object. The first four fields are the state of
its `RtMidiIn` base (the transport), the last four the members the source uses. -/
structure MidiInWrapper where
  /-- Index of the port that is open, if any. -/
  port : Option Nat
  /-- Number of `closePort()` calls made on this object. -/
  closePortCalls : Nat
  /-- Arguments of the last `ignoreTypes(sysex, time, sense)`. -/
  ignore : Bool × Bool × Bool
  /-- Events buffered by the transport and not yet handed out, oldest first. -/
  buffer : List (Stamp × Msg)
  idMessagesMap : Int → Option (List Msg)
  idStampsMap : Int → Option (List Stamp)
  uid_c : Int
  subscribers : Int

/-- Modelled from the spec: the constructor and member initialisers of
`struct MidiInWrapper` in MidiInterface.hpp. A new multiplexer has no port open,
the transport default of ignoring sysex, timing and active sensing, nothing
buffered, no queue and no subscriber; its id counter starts at 0, so that the
first id handed out is 1 (`isPortOpen` takes the ids of subscriptions to be
positive). -/
def MidiInWrapper.fresh : MidiInWrapper :=
  { port := none, closePortCalls := 0, ignore := (true, true, true), buffer := [],
    idMessagesMap := fun _ => none, idStampsMap := fun _ => none,
    uid_c := 0, subscribers := 0 }

/-- Transport call `RtMidiIn::openPort(i)` (RtMidi library): port `i` is open afterwards. -/
def MidiInWrapper.openPort (w : MidiInWrapper) (i : Nat) : MidiInWrapper :=
  { w with port := some i }

/-- Transport call `RtMidiIn::closePort()` (RtMidi library): no port is open afterwards. -/
def MidiInWrapper.closePort (w : MidiInWrapper) : MidiInWrapper :=
  { w with port := none, closePortCalls := w.closePortCalls + 1 }

/-- Transport call `RtMidiIn::ignoreTypes(sysex, time, sense)` (RtMidi library). -/
def MidiInWrapper.ignoreTypes (w : MidiInWrapper) (sysex time sense : Bool) : MidiInWrapper :=
  { w with ignore := (sysex, time, sense) }

/-- Time stamp returned by `RtMidiIn::getMessage(&m)`: that of the oldest buffered
event, `0.0` when nothing is buffered. -/
def MidiInWrapper.rtStamp (w : MidiInWrapper) : Stamp :=
  match w.buffer with
  | [] => 0
  | e :: _ => e.1

/-- Bytes stored in `m` by `RtMidiIn::getMessage(&m)`: those of the oldest buffered
event, empty when nothing is buffered. -/
def MidiInWrapper.rtMsg (w : MidiInWrapper) : Msg :=
  match w.buffer with
  | [] => []
  | e :: _ => e.2

/-- Transport after `RtMidiIn::getMessage`: the oldest buffered event is gone. -/
def MidiInWrapper.rtPop (w : MidiInWrapper) : MidiInWrapper :=
  { w with buffer := w.buffer.tail }

/-- Modelled from the spec: `MidiInWrapper::add()` of MidiInterface.hpp (the
multiplexer's `subscribe`), which allocates a fresh id (monotonically increasing,
never reused), creates an empty queue for it and increments the subscriber count.
Returns the id and the object after the call. -/
def MidiInWrapper.add (w : MidiInWrapper) : Int × MidiInWrapper :=
  (w.uid_c + 1,
   { w with
     uid_c := w.uid_c + 1
     subscribers := w.subscribers + 1
     idMessagesMap := umInsert w.idMessagesMap (w.uid_c + 1) []
     idStampsMap := umInsert w.idStampsMap (w.uid_c + 1) [] })

/-- Modelled from the spec: `MidiInWrapper::erase(id)` of MidiInterface.hpp (the
multiplexer's `unsubscribe`), which removes the queue for `id` and decrements
the subscriber count. -/
def MidiInWrapper.erase (w : MidiInWrapper) (id : Int) : MidiInWrapper :=
  { w with
    subscribers := w.subscribers - 1
    idMessagesMap := umErase w.idMessagesMap id
    idStampsMap := umErase w.idStampsMap id }

/-! ## Process state and handles -/

/-- Process-wide state: the static `MidiIO::midiInMap` and the heap of
`MidiInWrapper` objects it points into (`nextAddr` is the next free address). -/
structure Global where
  midiInMap : String → Option Ptr
  heap : Nat → MidiInWrapper
  nextAddr : Nat

/-- Heap after storing `w` at address `a`. -/
def heapSet (hp : Nat → MidiInWrapper) (a : Nat) (w : MidiInWrapper) : Nat → MidiInWrapper :=
  fun x => if x = a then w else hp x

/-- State at program start: empty registry, nothing allocated. -/
def Global.init : Global :=
  { midiInMap := fun _ => none, heap := fun _ => MidiInWrapper.fresh, nextAddr := 0 }

/-- The multiplexer pointer the registry yields for `name`: null when the key is
absent or maps to null. -/
def Global.find (g : Global) (name : String) : Ptr :=
  umAt g.midiInMap name none

/-- One `MidiIO` object (a subscription handle). -/
structure MidiIO where
  id : Int
  deviceName : String
  isOut : Bool
  channel : Int
  ignore_midiSysex : Bool
  ignore_midiTime : Bool
  ignore_midiSense : Bool

/-- Modelled from the spec: the member initialisers of `struct MidiIO` in
MidiInterface.hpp (id is the sentinel -1, the device name is empty, all three
categories ignored), followed by the constructor `MidiIO::MidiIO(isOut)`. -/
def MidiIO.new (isOut : Bool) : MidiIO :=
  { id := -1, deviceName := "", isOut := isOut, channel := -1,
    ignore_midiSysex := true, ignore_midiTime := true, ignore_midiSense := true }

/-- Method `MidiIO::getDeviceName`. -/
def getDeviceName (self : MidiIO) : String := self.deviceName

/-- Method `MidiIO::isPortOpen`. -/
def isPortOpen (self : MidiIO) : Bool := decide (self.id > 0)

/-- Method `MidiIO::setChannel`. -/
def setChannel (self : MidiIO) (channel : Int) : MidiIO := { self with channel := channel }

/-! ## The transport seen by `openDevice` -/

/-- What the transport does while `openDevice` creates a multiplexer. -/
inductive RtOutcome where
  /-- No `RtMidiError` is thrown. -/
  | ok
  /-- The constructor `new MidiInWrapper()` throws `RtMidiError`. -/
  | throwInCtor
  /-- One of `getPortCount`, `getPortName`, `openPort` throws `RtMidiError` in the port loop. -/
  | throwInPortLoop
  deriving DecidableEq, Repr

/-- The transport collaborator at the time of an `openDevice` call. -/
structure Transport where
  /-- Port names in enumeration order: `getPortName(0)`, `getPortName(1)`, ... -/
  ports : List String
  outcome : RtOutcome

/-- The port loop of `openDevice`: index of the first port from `i` on whose name
is `deviceName`. -/
def findPort (deviceName : String) : List String → Nat → Option Nat
  | [], _ => none
  | p :: ps, i => if deviceName = p then some i else findPort deviceName ps (i + 1)

/-- Method `MidiIO::getDevices`. -/
def getDevices (t : Transport) : List String := t.ports

/-! ## `MidiIO::close` -/

/-- Method `MidiIO::close()` on the handle `self`. -/
def close (g : Global) (self : MidiIO) : Global × MidiIO :=
  -- MidiInWrapper * mw = midiInMap[deviceName];
  let m1 := umTouch g.midiInMap self.deviceName none
  match umAt g.midiInMap self.deviceName none with
  | none => ({ g with midiInMap := m1 }, self)
  | some a =>
    if self.id < 0 then ({ g with midiInMap := m1 }, self)
    else
      -- mw->erase(id);
      let w := (g.heap a).erase self.id
      if w.subscribers = 0 then
        -- mw->closePort(); midiInMap.erase(deviceName);
        ({ g with midiInMap := umErase m1 self.deviceName, heap := heapSet g.heap a w.closePort },
         { self with id := -1, deviceName := "" })
      else
        ({ g with midiInMap := m1, heap := heapSet g.heap a w },
         { self with id := -1, deviceName := "" })

/-! ## `MidiIO::openDevice` -/

/-- The `try` block of `openDevice`, entered when `mw` is null. The Boolean is
true when `RtMidiError` was caught (the function then returns). -/
def tryCreate (t : Transport) (deviceName : String) (g : Global) : Global × Bool :=
  match t.outcome with
  | RtOutcome.throwInCtor => (g, true)
  | RtOutcome.throwInPortLoop =>
    -- mw = new MidiInWrapper(); midiInMap[deviceName] = mw; then the loop throws
    ({ midiInMap := umInsert g.midiInMap deviceName (some g.nextAddr),
       heap := heapSet g.heap g.nextAddr MidiInWrapper.fresh,
       nextAddr := g.nextAddr + 1 }, true)
  | RtOutcome.ok =>
    let w := match findPort deviceName t.ports 0 with
      | some i => MidiInWrapper.fresh.openPort i
      | none => MidiInWrapper.fresh
    ({ midiInMap := umInsert g.midiInMap deviceName (some g.nextAddr),
       heap := heapSet g.heap g.nextAddr w,
       nextAddr := g.nextAddr + 1 }, false)

/-- Lines 92-101 of `openDevice`: store the name, apply the ignore preference,
subscribe. Both `midiInMap[deviceName]->...` calls dereference what the registry
holds at that moment; `none` is the null dereference. -/
def subscribe (deviceName : String) (g : Global) (self : MidiIO) : Option (Global × MidiIO) :=
  -- this->deviceName = deviceName;
  let self1 := { self with deviceName := deviceName }
  -- if (!ignore_midiTime || !ignore_midiTime || !ignore_midiSense)
  let g1 : Option Global :=
    if (!self.ignore_midiTime || !self.ignore_midiTime || !self.ignore_midiSense) = true then
      match umAt g.midiInMap deviceName none with
      | none => none
      | some a =>
        some { g with
          heap := heapSet g.heap a
            ((g.heap a).ignoreTypes self.ignore_midiSysex self.ignore_midiTime self.ignore_midiSense) }
    else some g
  match g1 with
  | none => none
  | some g2 =>
    -- id = midiInMap[deviceName]->add();
    match umAt g2.midiInMap deviceName none with
    | none => none
    | some a =>
      some ({ g2 with heap := heapSet g2.heap a (g2.heap a).add.2 },
            { self1 with id := (g2.heap a).add.1 })

/-- Method `MidiIO::openDevice(deviceName)` on the handle `self`; `none` is a null
dereference. -/
def openDevice (t : Transport) (deviceName : String) (g : Global) (self : MidiIO) :
    Option (Global × MidiIO) :=
  -- MidiInWrapper *mw = midiInMap[deviceName];
  let mw := umAt g.midiInMap deviceName none
  let g1 := { g with midiInMap := umTouch g.midiInMap deviceName none }
  -- if (this->id > 0 || this->deviceName != "") close();
  let c := if self.id > 0 ∨ self.deviceName ≠ "" then close g1 self else (g1, self)
  -- if (!mw) { try { ... } catch (RtMidiError &error) { ...; return; } }
  match mw with
  | some _ => subscribe deviceName c.1 c.2
  | none =>
    let r := tryCreate t deviceName c.1
    if r.2 = true then some (r.1, c.2) else subscribe deviceName r.1 c.2

/-! ## `MidiIO::getMessage` -/

/-- The fan-out loop of `getMessage`: `next_msg` and `stamp` are appended to the
queues of every key of `idMessagesMap` (the stamp queue is created by `operator[]`
when it does not exist). -/
def fanOut (w : MidiInWrapper) (next_msg : Msg) (stamp : Stamp) : MidiInWrapper :=
  { w with
    idMessagesMap := fun k => (w.idMessagesMap k).map (fun q => q ++ [next_msg])
    idStampsMap := fun k =>
      match w.idMessagesMap k with
      | some _ => some (umAt w.idStampsMap k [] ++ [stamp])
      | none => w.idStampsMap k }

/-- Method `MidiIO::getMessage(msg)` on the handle `self`, where `msg` is what the
caller's vector holds before the call. Returns the state, the vector after the
call and the returned time stamp; `none` is `front()` of an empty list. -/
def getMessage (g : Global) (self : MidiIO) (msg : Msg) : Option (Global × Msg × Stamp) :=
  -- MidiInWrapper *mw = midiInMap[deviceName];
  let g1 := { g with midiInMap := umTouch g.midiInMap self.deviceName none }
  match umAt g.midiInMap self.deviceName none with
  | none => some (g1, msg, 0)
  | some a =>
    -- double stamp = midiInMap[deviceName]->getMessage(&next_msg);
    let w0 := g.heap a
    let stamp := w0.rtStamp
    let next_msg := w0.rtMsg
    let w1 := w0.rtPop
    -- if (next_msg.size() > 0) for (auto kv : mw->idMessagesMap) ...
    let w2 := if next_msg.length > 0 then fanOut w1 next_msg stamp else w1
    -- if (mw->idMessagesMap[id].size() <= 0) { *msg = next_msg; return stamp; }
    let w3 := { w2 with idMessagesMap := umTouch w2.idMessagesMap self.id [] }
    match umAt w2.idMessagesMap self.id [] with
    | [] => some ({ g1 with heap := heapSet g1.heap a w3 }, next_msg, stamp)
    | m :: q =>
      -- *msg = front(); stamp = mw->idStampsMap[id].front(); mw->idMessagesMap[id].pop_front();
      match umAt w3.idStampsMap self.id [] with
      | [] => none
      | st :: _ =>
        let w4 := { w3 with
          idMessagesMap := umInsert w3.idMessagesMap self.id q
          idStampsMap := umTouch w3.idStampsMap self.id [] }
        some ({ g1 with heap := heapSet g1.heap a w4 }, m, st)

/-! ## Several handles sharing the registry -/

/-- The process together with its `MidiIO` objects: handle number `i` is `handles i`. -/
structure Sys where
  g : Global
  handles : Nat → MidiIO

/-- Handles after handle `i` has become `h`. -/
def setHandle (hs : Nat → MidiIO) (i : Nat) (h : MidiIO) : Nat → MidiIO :=
  fun x => if x = i then h else hs x

/-- Program start: empty registry, every handle freshly constructed. -/
def Sys.init : Sys :=
  { g := Global.init, handles := fun _ => MidiIO.new false }

/-- Handle `i` calls `openDevice(name)`. -/
def Sys.openDevice (t : Transport) (name : String) (i : Nat) (s : Sys) : Option Sys :=
  (Rack.openDevice t name s.g (s.handles i)).map
    (fun r => { g := r.1, handles := setHandle s.handles i r.2 })

/-- Handle `i` calls `close()`. -/
def Sys.close (i : Nat) (s : Sys) : Sys :=
  { g := (Rack.close s.g (s.handles i)).1,
    handles := setHandle s.handles i (Rack.close s.g (s.handles i)).2 }

/-- Handle `i` calls `getMessage(&msg)`. -/
def Sys.getMessage (i : Nat) (msg : Msg) (s : Sys) : Option (Sys × Msg × Stamp) :=
  (Rack.getMessage s.g (s.handles i) msg).map (fun r => ({ s with g := r.1 }, r.2.1, r.2.2))

/-- The transport of the multiplexer at address `a` buffers the event `e`. -/
def Sys.arrive (a : Nat) (e : Stamp × Msg) (s : Sys) : Sys :=
  { s with g := { s.g with
      heap := heapSet s.g.heap a { s.g.heap a with buffer := (s.g.heap a).buffer ++ [e] } } }

/-- Handles `is` call `openDevice(name)` one after the other. -/
def Sys.openAll (t : Transport) (name : String) : List Nat → Sys → Option Sys
  | [], s => some s
  | i :: is, s => (Sys.openDevice t name i s).bind (Sys.openAll t name is)

/-- Handles `is` call `close()` one after the other. -/
def Sys.closeAll : List Nat → Sys → Sys
  | [], s => s
  | i :: is, s => Sys.closeAll is (Sys.close i s)

/-- One call made by a handle, or one event reaching a transport. -/
inductive Act where
  | openDevice (t : Transport) (name : String) (i : Nat)
  | close (i : Nat)
  | getMessage (i : Nat) (msg : Msg)
  | arrive (a : Nat) (e : Stamp × Msg)

/-- What one `getMessage` call gave back: the handle, the bytes, the time stamp. -/
abbrev Poll := Nat × Msg × Stamp

/-- Effect of one action: the next state and the polls it answered. -/
def step (s : Sys) : Act → Option (Sys × List Poll)
  | Act.openDevice t name i => (Sys.openDevice t name i s).map (fun s1 => (s1, []))
  | Act.close i => some (Sys.close i s, [])
  | Act.getMessage i msg => (Sys.getMessage i msg s).map (fun r => (r.1, [(i, r.2.1, r.2.2)]))
  | Act.arrive a e => some (Sys.arrive a e s, [])

/-- Runs the actions in order, collecting the answers of all polls. -/
def run (acts : List Act) (s : Sys) : Option (Sys × List Poll) :=
  acts.foldl
    (fun r act => r.bind (fun st => (step st.1 act).map (fun x => (x.1, st.2 ++ x.2))))
    (some (s, []))

/-- Events that reached the transport of the multiplexer at `a` during `acts`. -/
def arrivals (a : Nat) : List Act → List (Stamp × Msg)
  | [] => []
  | Act.arrive b e :: acts => if b = a then e :: arrivals a acts else arrivals a acts
  | _ :: acts => arrivals a acts

/-- Non-empty payloads that handle `i` was given, in the order of its polls. -/
def received (i : Nat) (tr : List Poll) : List Msg :=
  ((tr.filter (fun p => decide (p.1 = i))).map (fun p => p.2.1)).filter (fun m => decide (m ≠ []))

/-- Pairs of time stamp and non-empty payload that handle `i` was given. -/
def receivedEvents (i : Nat) (tr : List Poll) : List (Stamp × Msg) :=
  ((tr.filter (fun p => decide (p.1 = i))).map (fun p => (p.2.2, p.2.1))).filter
    (fun e => decide (e.2 ≠ []))


/-! ## Notions used to state the properties -/

/-- The stamp queue of id `k` is at least as long as its message queue (absent
queues count as empty), so that `front()` of the stamp queue is defined whenever
the message queue is non-empty. -/
def stampsCover (w : MidiInWrapper) (k : Int) : Prop :=
  (umAt w.idMessagesMap k []).length ≤ (umAt w.idStampsMap k []).length

/-- What one `getMessage` call appends to every queue: the payload handed out by
the transport when it is non-empty, nothing otherwise. -/
def fanned (w : MidiInWrapper) : List Msg :=
  if w.rtMsg.length > 0 then [w.rtMsg] else []

/-- Holds of an action that is a poll by one of the handles `hs` or the arrival of
an event with non-empty payload at the transport of the multiplexer at `a`. -/
def pollOrArrival (hs : List Nat) (a : Nat) : Act → Bool
  | Act.getMessage i _ => decide (i ∈ hs)
  | Act.arrive b e => decide (b = a) && decide (e.2 ≠ [])
  | _ => false


/-- Subscriber count of the multiplexer registered under `name`, 0 when there is none. -/
def Global.subscribersOf (g : Global) (name : String) : Int :=
  match g.find name with
  | some b => (g.heap b).subscribers
  | none => 0

/-! ## Concrete transports and states -/

/-- A transport that enumerates the ports D1 and D2 and raises no error. -/
def demoTransport : Transport := { ports := ["D1", "D2"], outcome := RtOutcome.ok }

/-- The same ports, but the port loop of `openDevice` raises `RtMidiError`. -/
def failingTransport : Transport :=
  { ports := ["D1", "D2"], outcome := RtOutcome.throwInPortLoop }

/-- Handle 0 alone subscribed to the enumerated device D1. -/
def oneOnD1 : Sys := (Sys.openAll demoTransport "D1" [0] Sys.init).getD Sys.init

/-- Handle 0 alone on D1 while the transport holds two events. -/
def oneOnD1TwoEvents : Sys :=
  Sys.arrive 0 (102, [128, 64, 0]) (Sys.arrive 0 (100, [144, 64, 127]) oneOnD1)

/-- Handle 0 subscribed to D1 and handle 1 subscribed to D2. -/
def oneOnD1oneOnD2 : Sys :=
  ((Sys.openDevice demoTransport "D2" 1 oneOnD1).getD Sys.init)

/-- Two handles subscribed to the enumerated device D1, nothing polled yet. -/
def twoOnD1 : Sys := (Sys.openAll demoTransport "D1" [0, 1] Sys.init).getD Sys.init

/-! ## Configuration: `MidiIO::addBaseJson` and `MidiIO::baseFromJson` -/

/-- A JSON value as far as this code uses them (jansson `json_string`, `json_integer`). -/
inductive JVal where
  | str (s : String)
  | int (n : Int)
  deriving DecidableEq, Repr

/-- A JSON object: the value stored under each key, `none` when the key is absent. -/
abbrev JObj := String → Option JVal

/-- Library call `json_string_value`: the string of a string value, NULL otherwise
(`none`; the source builds a `std::string` from it, which is undefined for NULL). -/
def json_string_value : JVal → Option String
  | JVal.str s => some s
  | JVal.int _ => none

/-- Library call `json_integer_value`: the number of an integer value, 0 otherwise. -/
def json_integer_value : JVal → Int
  | JVal.int n => n
  | JVal.str _ => 0

/-- Method `MidiIO::addBaseJson(rootJ)`: the object after the call. -/
def addBaseJson (self : MidiIO) (rootJ : JObj) : JObj :=
  if self.deviceName ≠ "" then
    umInsert (umInsert rootJ "interfaceName" (JVal.str self.deviceName)) "channel"
      (JVal.int self.channel)
  else rootJ

/-- Method `MidiIO::baseFromJson(rootJ)` on the handle `self`; `none` is undefined
behaviour (a null dereference in `openDevice`, or an interface name that is no string). -/
def baseFromJson (t : Transport) (rootJ : JObj) (g : Global) (self : MidiIO) :
    Option (Global × MidiIO) :=
  -- json_t *portNameJ = json_object_get(rootJ, "interfaceName"); if (portNameJ) openDevice(...)
  let r : Option (Global × MidiIO) :=
    match rootJ "interfaceName" with
    | none => some (g, self)
    | some v =>
      match json_string_value v with
      | none => none
      | some name => openDevice t name g self
  match r with
  | none => none
  | some c =>
    -- json_t *channelJ = json_object_get(rootJ, "channel"); if (channelJ) setChannel(...)
    match rootJ "channel" with
    | none => some c
    | some v => some (c.1, setChannel c.2 (json_integer_value v))

/-! ## Notions used to state the invariants -/

/-- Holds of every action except an `openDevice` during which the port loop throws. -/
def noPortLoopFailure : Act → Bool
  | Act.openDevice t _ _ => decide (t.outcome ≠ RtOutcome.throwInPortLoop)
  | _ => true

/-- Every multiplexer that the registry yields for a name is an allocated object
with at least one subscriber, and no two names yield the same object. -/
def RegistryOk (g : Global) : Prop :=
  (∀ name a, g.find name = some a → a < g.nextAddr ∧ 1 ≤ (g.heap a).subscribers) ∧
  (∀ n1 n2 a, g.find n1 = some a → g.find n2 = some a → n1 = n2)

/-- State and handle in `openDevice(n)` after lines 67-71: `midiInMap[n]` has been
evaluated and a handle that holds an id or a name has called `close()`. -/
def closedFirst (n : String) (g : Global) (self : MidiIO) : Global × MidiIO :=
  if self.id > 0 ∨ self.deviceName ≠ "" then
    close { g with midiInMap := umTouch g.midiInMap n none } self
  else ({ g with midiInMap := umTouch g.midiInMap n none }, self)

/-- A fresh handle that wants system exclusive messages only. -/
def sysexListener : MidiIO := { ( MidiIO.new false) with ignore_midiSysex := false }

/-- A fresh handle that wants timing messages only. -/
def clockListener : MidiIO := { ( MidiIO.new false) with ignore_midiTime := false }

/-- Handle 0 has chosen the empty first entry of the device menu: `openDevice("")`. -/
def emptyEntryChosen : Sys := (Sys.openDevice demoTransport "" 0 Sys.init).getD Sys.init

/-- Handle 0 alone on D1 while the transport holds one event. -/
def oneOnD1OneEvent : Sys := Sys.arrive 0 (100, [144, 64, 127]) oneOnD1

/-! ## Helper lemmas -/

theorem umAt_of_eq {κ α : Type} (m : κ → Option α) (k : κ) (d v : α) (h : m k = some v) :
    umAt m k d = v := by
  simp [umAt, h]

theorem umTouch_of_eq {κ α : Type} [DecidableEq κ] (m : κ → Option α) (k : κ) (d v : α)
    (h : m k = some v) : umTouch m k d = m := by
  simp [umTouch, h]

theorem heapSet_same (hp : Nat → MidiInWrapper) (a : Nat) (w : MidiInWrapper) :
    heapSet hp a w a = w := by
  simp [heapSet]

theorem heapSet_other (hp : Nat → MidiInWrapper) (a b : Nat) (w : MidiInWrapper) (h : b ≠ a) :
    heapSet hp a w b = hp b := by
  simp [heapSet, h]

theorem umInsert_same {κ α : Type} [DecidableEq κ] (m : κ → Option α) (k : κ) (v : α) :
    umInsert m k v k = some v := by
  simp [umInsert]

theorem umInsert_other {κ α : Type} [DecidableEq κ] (m : κ → Option α) (k x : κ) (v : α)
    (h : x ≠ k) : umInsert m k v x = m x := by
  simp [umInsert, h]

theorem umErase_same {κ α : Type} [DecidableEq κ] (m : κ → Option α) (k : κ) :
    umErase m k k = none := by
  simp [umErase]

theorem umErase_other {κ α : Type} [DecidableEq κ] (m : κ → Option α) (k x : κ)
    (h : x ≠ k) : umErase m k x = m x := by
  simp [umErase, h]

theorem umTouch_other {κ α : Type} [DecidableEq κ] (m : κ → Option α) (k x : κ) (d : α)
    (h : x ≠ k) : umTouch m k d x = m x := by
  unfold umTouch
  cases m k with
  | none => simp [umInsert, h]
  | some v => rfl

theorem umAt_umTouch {κ α : Type} [DecidableEq κ] (m : κ → Option α) (k x : κ) (d : α) :
    umAt (umTouch m k d) x d = umAt m x d := by
  unfold umTouch
  cases hk : m k with
  | none =>
    by_cases hx : x = k
    · subst hx; simp [umAt, umInsert, hk]
    · simp [umAt, umInsert, hx]
  | some v => rfl

theorem umAt_umInsert_same {κ α : Type} [DecidableEq κ] (m : κ → Option α) (k : κ) (v d : α) :
    umAt (umInsert m k v) k d = v := by
  simp [umAt, umInsert]

theorem umAt_umInsert_other {κ α : Type} [DecidableEq κ] (m : κ → Option α) (k x : κ) (v d : α)
    (h : x ≠ k) : umAt (umInsert m k v) x d = umAt m x d := by
  simp [umAt, umInsert, h]

theorem getMessage_live (g : Global) (self : MidiIO) (msg : Msg) (a : Nat) (q : List Msg)
    (hreg : g.midiInMap self.deviceName = some (some a))
    (hq : (g.heap a).idMessagesMap self.id = some q)
    (hcov : stampsCover (g.heap a) self.id) :
    ∃ g1 st, getMessage g self msg = some (g1, (q ++ fanned (g.heap a)).headD [], st) ∧
      g1.midiInMap = g.midiInMap ∧
      (g1.heap a).buffer = (g.heap a).buffer.tail ∧
      (g1.heap a).idMessagesMap self.id = some (q ++ fanned (g.heap a)).tail ∧
      (∀ k, k ≠ self.id →
        (g1.heap a).idMessagesMap k =
          ((g.heap a).idMessagesMap k).map (fun x => x ++ fanned (g.heap a))) ∧
      (∀ k, stampsCover (g.heap a) k → stampsCover (g1.heap a) k) := by
  unfold getMessage
  simp only [umAt_of_eq _ _ _ _ hreg, umTouch_of_eq _ _ _ _ hreg]
  by_cases hm : (g.heap a).rtMsg.length > 0
  · have hA : umAt (fanOut (g.heap a).rtPop (g.heap a).rtMsg (g.heap a).rtStamp).idMessagesMap
        self.id [] = q ++ [(g.heap a).rtMsg] := by
      simp [umAt, fanOut, MidiInWrapper.rtPop, hq]
    have hB : ∃ s0 ss, umAt (fanOut (g.heap a).rtPop (g.heap a).rtMsg
        (g.heap a).rtStamp).idStampsMap self.id [] = s0 :: ss := by
      simp only [umAt, fanOut, MidiInWrapper.rtPop, hq]
      cases hs : (g.heap a).idStampsMap self.id with
      | none => exact ⟨_, _, rfl⟩
      | some l =>
        cases l with
        | nil => exact ⟨_, _, rfl⟩
        | cons x xs => exact ⟨_, _, rfl⟩
    obtain ⟨s0, ss, hB⟩ := hB
    have hcovK : ∀ k, stampsCover (g.heap a) k →
        (umAt (fanOut (g.heap a).rtPop (g.heap a).rtMsg (g.heap a).rtStamp).idMessagesMap k []).length
          ≤ (umAt (fanOut (g.heap a).rtPop (g.heap a).rtMsg (g.heap a).rtStamp).idStampsMap k []).length := by
      intro k hk
      unfold stampsCover at hk
      simp only [umAt, fanOut, MidiInWrapper.rtPop] at hk ⊢
      cases hmk : (g.heap a).idMessagesMap k with
      | none => simp [hmk] at hk ⊢
      | some l =>
        simp only [hmk] at hk ⊢
        simp
        exact hk
    simp only [hm, if_true, fanned, hA]
    obtain ⟨x, xs, hx⟩ : ∃ x xs, q ++ [(g.heap a).rtMsg] = x :: xs := by
      cases q with
      | nil => exact ⟨_, _, rfl⟩
      | cons y ys => exact ⟨_, _, rfl⟩
    simp only [hx, umAt_umTouch, hB]
    refine ⟨_, _, rfl, rfl, ?_, ?_, ?_, ?_⟩
    · simp [heapSet, fanOut, MidiInWrapper.rtPop]
    · simp [heapSet, umInsert]
    · intro k hk
      simp [heapSet, umInsert, hk, umTouch_other, fanOut, MidiInWrapper.rtPop]
    · intro k hk
      have h1 := hcovK k hk
      unfold stampsCover
      simp only [heapSet_same, umAt_umTouch]
      by_cases hkid : k = self.id
      · subst hkid
        rw [hA, hx] at h1
        rw [umAt_umInsert_same]
        simp only [List.length_cons] at h1
        omega
      · rw [umAt_umInsert_other _ _ _ _ _ hkid, umAt_umTouch]
        exact h1
  · have hf : fanned (g.heap a) = [] := by simp [fanned, hm]
    have hA : umAt (g.heap a).rtPop.idMessagesMap self.id [] = q := by
      simp [umAt, MidiInWrapper.rtPop, hq]
    have hr : (g.heap a).rtMsg = [] := by
      cases hr : (g.heap a).rtMsg with
      | nil => rfl
      | cons x xs => simp [hr] at hm
    simp only [hm, if_false, hf, List.append_nil, hA]
    cases q with
    | nil =>
      simp only [hr]
      refine ⟨_, _, rfl, rfl, ?_, ?_, ?_, ?_⟩
      · simp [heapSet, MidiInWrapper.rtPop]
      · simp [heapSet, MidiInWrapper.rtPop, umTouch, hq]
      · intro k hk
        simp [heapSet, umTouch_other _ _ _ _ hk, MidiInWrapper.rtPop]
      · intro k hk
        unfold stampsCover at hk ⊢
        simp only [heapSet_same, umAt_umTouch]
        exact hk
    | cons x xs =>
      have hB : ∃ s0 ss, umAt (g.heap a).idStampsMap self.id [] = s0 :: ss := by
        unfold stampsCover at hcov
        rw [umAt_of_eq _ _ _ _ hq] at hcov
        cases hs : umAt (g.heap a).idStampsMap self.id [] with
        | nil => simp [hs] at hcov
        | cons y ys => exact ⟨_, _, rfl⟩
      obtain ⟨s0, ss, hB⟩ := hB
      have hB2 : umAt (g.heap a).rtPop.idStampsMap self.id [] = s0 :: ss := hB
      simp only [hB2]
      refine ⟨_, _, rfl, rfl, ?_, ?_, ?_, ?_⟩
      · simp [heapSet, MidiInWrapper.rtPop]
      · simp [heapSet, umInsert]
      · intro k hk
        simp [heapSet, umInsert, hk, umTouch_other, MidiInWrapper.rtPop]
      · intro k hk
        unfold stampsCover at hk ⊢
        simp only [heapSet_same, umAt_umTouch]
        by_cases hkid : k = self.id
        · subst hkid
          rw [umAt_umInsert_same]
          rw [umAt_of_eq _ _ _ _ hq] at hk
          simp only [List.length_cons] at hk
          have : umAt (g.heap a).rtPop.idStampsMap self.id [] =
              umAt (g.heap a).idStampsMap self.id [] := rfl
          rw [this]
          omega
        · rw [umAt_umInsert_other _ _ _ _ _ hkid, umAt_umTouch]
          exact hk

theorem run_snoc (acts : List Act) (act : Act) (s : Sys) :
    run (acts ++ [act]) s =
      (run acts s).bind (fun st => (step st.1 act).map (fun x => (x.1, st.2 ++ x.2))) := by
  simp [run, List.foldl_append]

theorem arrivals_snoc (a : Nat) (acts : List Act) (act : Act) :
    arrivals a (acts ++ [act]) = arrivals a acts ++ arrivals a [act] := by
  induction acts with
  | nil => simp [arrivals]
  | cons x xs ih =>
    cases x with
    | arrive b e =>
      by_cases hb : b = a
      · simp [arrivals, hb, ih]
      · simp [arrivals, hb, ih]
    | openDevice t name i => simpa [arrivals] using ih
    | close i => simpa [arrivals] using ih
    | getMessage i msg => simpa [arrivals] using ih

theorem received_append (i : Nat) (tr tr2 : List Poll) :
    received i (tr ++ tr2) = received i tr ++ received i tr2 := by
  simp [received]

theorem fanned_eq_take (w : MidiInWrapper) (h : ∀ e ∈ w.buffer, e.2 ≠ []) :
    fanned w = (w.buffer.take 1).map Prod.snd := by
  unfold fanned MidiInWrapper.rtMsg
  cases hb : w.buffer with
  | nil => simp
  | cons e es =>
    have : e.2 ≠ [] := h e (by simp [hb])
    have h2 : 0 < e.2.length := List.length_pos.mpr this
    simp [h2]

theorem head_tail_nonempty (l : List Msg) (h : ∀ m ∈ l, m ≠ []) :
    (if l.headD [] ≠ [] then [l.headD []] else []) ++ l.tail = l := by
  cases l with
  | nil => simp
  | cons x xs =>
    have : x ≠ [] := h x (by simp)
    simp [this]

theorem received_single (i : Nat) (m : Msg) (st : Stamp) :
    received i [(i, m, st)] = if m ≠ [] then [m] else [] := by
  by_cases hx : m = []
  · simp [received, hx]
  · simp [received, hx]

theorem poll_invariant (s : Sys) (n : String) (a : Nat) (hs : List Nat)
    (hreg : s.g.midiInMap n = some (some a))
    (hname : ∀ i ∈ hs, (s.handles i).deviceName = n)
    (hq : ∀ i ∈ hs, (s.g.heap a).idMessagesMap (s.handles i).id = some [])
    (hid : ∀ i ∈ hs, ∀ j ∈ hs, (s.handles i).id = (s.handles j).id → i = j)
    (hbuf : ∀ e ∈ (s.g.heap a).buffer, e.2 ≠ []) (acts : List Act)
    (hacts : ∀ act ∈ acts, (∃ i ∈ hs, ∃ m, act = Act.getMessage i m) ∨
      (∃ e, e.2 ≠ [] ∧ act = Act.arrive a e)) :
    ∃ s1 tr, run acts s = some (s1, tr) ∧ s1.handles = s.handles ∧
      s1.g.midiInMap n = some (some a) ∧ (∀ e ∈ (s1.g.heap a).buffer, e.2 ≠ []) ∧
      ∀ i ∈ hs, stampsCover (s1.g.heap a) (s.handles i).id ∧
        ∃ q, (s1.g.heap a).idMessagesMap (s.handles i).id = some q ∧ (∀ m ∈ q, m ≠ []) ∧
          received i tr ++ q ++ (s1.g.heap a).buffer.map Prod.snd =
            ((s.g.heap a).buffer ++ arrivals a acts).map Prod.snd := by
  induction acts using List.reverseRecOn with
  | nil =>
    refine ⟨s, [], rfl, rfl, hreg, hbuf, ?_⟩
    intro i hi
    refine ⟨?_, [], hq i hi, by simp, by simp [received, arrivals]⟩
    simp [stampsCover, umAt, hq i hi]
  | append_singleton acts act ih =>
    have hacts1 : ∀ x ∈ acts, (∃ i ∈ hs, ∃ m, x = Act.getMessage i m) ∨
        (∃ e, e.2 ≠ [] ∧ x = Act.arrive a e) := fun x hx => hacts x (by simp [hx])
    obtain ⟨s1, tr, hrun, hh, hreg1, hbuf1, hall⟩ := ih hacts1
    rw [run_snoc, hrun, arrivals_snoc]
    rcases hacts act (by simp) with ⟨j, hj, m0, rfl⟩ | ⟨e, he, rfl⟩
    · -- a poll by handle j
      obtain ⟨hcovj, qj, hqj, hnej, heqj⟩ := hall j hj
      have hdn : (s1.handles j).deviceName = n := by rw [hh]; exact hname j hj
      have hreg2 : s1.g.midiInMap (s1.handles j).deviceName = some (some a) := by
        rw [hdn]; exact hreg1
      have hidj : (s1.handles j).id = (s.handles j).id := by rw [hh]
      obtain ⟨g1, st, hget, hmap, hbuf2, hown, hoth, hcov⟩ :=
        getMessage_live s1.g (s1.handles j) m0 a qj hreg2 (by rw [hidj]; exact hqj)
          (by rw [hidj]; exact hcovj)
      have hf := fanned_eq_take (s1.g.heap a) hbuf1
      have hfne : ∀ m ∈ fanned (s1.g.heap a), m ≠ [] := by
        intro m hm
        rw [hf] at hm
        simp only [List.mem_map] at hm
        obtain ⟨e, he, rfl⟩ := hm
        exact hbuf1 e (List.mem_of_mem_take he)
      have hsplit : fanned (s1.g.heap a) ++ (s1.g.heap a).buffer.tail.map Prod.snd =
          (s1.g.heap a).buffer.map Prod.snd := by
        rw [hf]
        cases (s1.g.heap a).buffer with
        | nil => simp
        | cons e es => simp
      refine ⟨{ s1 with g := g1 }, tr ++ [(j, (qj ++ fanned (s1.g.heap a)).headD [], st)], ?_,
        hh, ?_, ?_, ?_⟩
      · simp [step, Sys.getMessage, hget]
      · show g1.midiInMap n = _
        rw [hmap]; exact hreg1
      · show ∀ e ∈ (g1.heap a).buffer, e.2 ≠ []
        rw [hbuf2]
        intro e he
        exact hbuf1 e (List.mem_of_mem_tail he)
      · intro i hi
        obtain ⟨hcovi, qi, hqi, hnei, heqi⟩ := hall i hi
        refine ⟨hcov _ hcovi, ?_⟩
        show ∃ q, (g1.heap a).idMessagesMap (s.handles i).id = some q ∧ _ ∧
          received i _ ++ q ++ (g1.heap a).buffer.map Prod.snd = _
        by_cases hij : i = j
        · subst hij
          have hqq : qi = qj := by
            rw [hqi] at hqj
            exact Option.some.inj hqj
          subst hqq
          have hne2 : ∀ m ∈ qi ++ fanned (s1.g.heap a), m ≠ [] := by
            intro m hm
            rcases List.mem_append.mp hm with h | h
            · exact hnei m h
            · exact hfne m h
          refine ⟨(qi ++ fanned (s1.g.heap a)).tail, ?_, ?_, ?_⟩
          · rw [← hidj]; exact hown
          · intro m hm
            exact hne2 m (List.mem_of_mem_tail hm)
          · rw [received_append, hbuf2]
            rw [received_single]
            have h2 := head_tail_nonempty _ hne2
            simp only [arrivals, List.append_nil]
            rw [← heqi]
            calc received i tr ++ (if (qi ++ fanned (s1.g.heap a)).headD [] ≠ [] then
                    [(qi ++ fanned (s1.g.heap a)).headD []] else []) ++
                  (qi ++ fanned (s1.g.heap a)).tail ++ (s1.g.heap a).buffer.tail.map Prod.snd
                = received i tr ++ ((if (qi ++ fanned (s1.g.heap a)).headD [] ≠ [] then
                    [(qi ++ fanned (s1.g.heap a)).headD []] else []) ++
                  (qi ++ fanned (s1.g.heap a)).tail) ++ (s1.g.heap a).buffer.tail.map Prod.snd := by
                  simp only [List.append_assoc]
              _ = received i tr ++ (qi ++ fanned (s1.g.heap a)) ++
                  (s1.g.heap a).buffer.tail.map Prod.snd := by rw [h2]
              _ = received i tr ++ qi ++ (fanned (s1.g.heap a) ++
                  (s1.g.heap a).buffer.tail.map Prod.snd) := by simp only [List.append_assoc]
              _ = received i tr ++ qi ++ (s1.g.heap a).buffer.map Prod.snd := by rw [hsplit]
        · have hidne : (s.handles i).id ≠ (s1.handles j).id := by
            rw [hidj]
            intro h
            exact hij (hid i hi j hj h)
          refine ⟨qi ++ fanned (s1.g.heap a), ?_, ?_, ?_⟩
          · rw [hoth _ hidne, hqi]; rfl
          · intro m hm
            rcases List.mem_append.mp hm with h | h
            · exact hnei m h
            · exact hfne m h
          · rw [received_append, hbuf2]
            have h1 : received i [(j, (qj ++ fanned (s1.g.heap a)).headD [], st)] = [] := by
              have : ¬ j = i := fun h => hij h.symm
              simp [received, this]
            rw [h1]
            simp only [arrivals, List.append_nil]
            rw [← heqi, ← hsplit]
            simp only [List.append_assoc]
    · -- an event reaches the transport
      refine ⟨Sys.arrive a e s1, tr, ?_, hh, hreg1, ?_, ?_⟩
      · simp [step]
      · intro x hx
        simp only [Sys.arrive, heapSet_same, List.mem_append, List.mem_singleton] at hx
        rcases hx with h | h
        · exact hbuf1 x h
        · rw [h]; exact he
      · intro i hi
        obtain ⟨hcovi, qi, hqi, hnei, heqi⟩ := hall i hi
        have hw : (Sys.arrive a e s1).g.heap a =
            { s1.g.heap a with buffer := (s1.g.heap a).buffer ++ [e] } := by
          simp [Sys.arrive, heapSet]
        rw [hw]
        refine ⟨hcovi, qi, hqi, hnei, ?_⟩
        simp only [arrivals, if_true, List.map_append, List.map_cons, List.map_nil]
        simp only [List.map_append] at heqi
        rw [← List.append_assoc, heqi, List.append_assoc]

/-! ## C1: in-order, exactly-once delivery of payloads -/

/-- C1. Handles `hs` are subscribed to the device `n`, whose multiplexer is at `a`,
with distinct ids and empty message queues; `acts` is any interleaving of polls by
these handles and of arrivals of events with non-empty payload at the transport.
Then the run returns, the non-empty payloads each handle received are a prefix of
the payloads of the events handed to the transport (those buffered at the start
followed by the arrivals, in order), and they are all of them once the transport
buffer and the handle's own queue are empty. -/
theorem getMessage_in_order_exactly_once (s : Sys) (n : String) (a : Nat) (hs : List Nat)
    (acts : List Act)
    (hreg : s.g.midiInMap n = some (some a))
    (hname : ∀ i ∈ hs, (s.handles i).deviceName = n)
    (hq : ∀ i ∈ hs, (s.g.heap a).idMessagesMap (s.handles i).id = some [])
    (hid : ∀ i ∈ hs, ∀ j ∈ hs, (s.handles i).id = (s.handles j).id → i = j)
    (hbuf : ∀ e ∈ (s.g.heap a).buffer, e.2 ≠ [])
    (hacts : ∀ act ∈ acts, pollOrArrival hs a act = true) :
    ∃ s1 tr, run acts s = some (s1, tr) ∧
      ∀ i ∈ hs,
        received i tr <+: ((s.g.heap a).buffer ++ arrivals a acts).map Prod.snd ∧
        ((s1.g.heap a).buffer = [] →
          (s1.g.heap a).idMessagesMap (s1.handles i).id = some [] →
          received i tr = ((s.g.heap a).buffer ++ arrivals a acts).map Prod.snd) := by
  have hacts2 : ∀ act ∈ acts, (∃ i ∈ hs, ∃ m, act = Act.getMessage i m) ∨
      (∃ e, e.2 ≠ [] ∧ act = Act.arrive a e) := by
    intro act hact
    have h := hacts act hact
    cases act with
    | openDevice t name i => simp [pollOrArrival] at h
    | close i => simp [pollOrArrival] at h
    | getMessage i m =>
      simp only [pollOrArrival, decide_eq_true_eq] at h
      exact Or.inl ⟨i, h, m, rfl⟩
    | arrive b e =>
      simp only [pollOrArrival, Bool.and_eq_true, decide_eq_true_eq] at h
      obtain ⟨hb, he⟩ := h
      subst hb
      exact Or.inr ⟨e, he, rfl⟩
  obtain ⟨s1, tr, hrun, hh, _, _, hall⟩ :=
    poll_invariant s n a hs hreg hname hq hid hbuf acts hacts2
  refine ⟨s1, tr, hrun, ?_⟩
  intro i hi
  obtain ⟨_, q, hqi, _, heq⟩ := hall i hi
  constructor
  · rw [← heq, List.append_assoc]
    exact List.prefix_append _ _
  · intro hb hqe
    rw [hh, hqi] at hqe
    have hq0 : q = [] := Option.some.inj hqe
    rw [← heq, hb, hq0]
    simp

/-- Witness for C1: two subscribers of D1, two events, polls interleaved. -/
theorem getMessage_in_order_exactly_once_witness :
    ∃ s1 tr, run [Act.arrive 0 (100, [144, 64, 127]), Act.getMessage 0 [],
        Act.arrive 0 (102, [128, 64, 0]), Act.getMessage 1 [], Act.getMessage 0 [],
        Act.getMessage 1 [], Act.getMessage 1 []] twoOnD1 = some (s1, tr) ∧
      ∀ i ∈ [0, 1],
        received i tr <+: ((twoOnD1.g.heap 0).buffer ++ arrivals 0
          [Act.arrive 0 (100, [144, 64, 127]), Act.getMessage 0 [],
            Act.arrive 0 (102, [128, 64, 0]), Act.getMessage 1 [], Act.getMessage 0 [],
            Act.getMessage 1 [], Act.getMessage 1 []]).map Prod.snd ∧
        ((s1.g.heap 0).buffer = [] →
          (s1.g.heap 0).idMessagesMap (s1.handles i).id = some [] →
          received i tr = ((twoOnD1.g.heap 0).buffer ++ arrivals 0
            [Act.arrive 0 (100, [144, 64, 127]), Act.getMessage 0 [],
              Act.arrive 0 (102, [128, 64, 0]), Act.getMessage 1 [], Act.getMessage 0 [],
              Act.getMessage 1 [], Act.getMessage 1 []]).map Prod.snd) :=
  getMessage_in_order_exactly_once twoOnD1 "D1" 0 [0, 1] _ (by decide) (by decide) (by decide)
    (by decide) (by decide) (by decide)

/-! ## Single calls of openDevice and close -/

theorem findPort_isSome (n : String) (ports : List String) (i : Nat) (h : n ∈ ports) :
    ∃ p, findPort n ports i = some p := by
  induction ports generalizing i with
  | nil => simp at h
  | cons x xs ih =>
    unfold findPort
    by_cases hx : n = x
    · exact ⟨i, by simp [hx]⟩
    · have hmem : n ∈ xs := by
        rcases List.mem_cons.mp h with h | h
        · exact absurd h hx
        · exact h
      simp only [hx, if_false]
      exact ih (i + 1) hmem

theorem findPort_none (n : String) (ports : List String) (i : Nat) (h : n ∉ ports) :
    findPort n ports i = none := by
  induction ports generalizing i with
  | nil => rfl
  | cons x xs ih =>
    unfold findPort
    have hx : n ≠ x := fun e => h (by simp [e])
    have hmem : n ∉ xs := fun e => h (by simp [e])
    simp only [hx, if_false]
    exact ih (i + 1) hmem

/-- Subscribing through a live registry entry. -/
theorem subscribe_live (n : String) (g : Global) (self : MidiIO) (a : Nat)
    (hreg : g.midiInMap n = some (some a)) :
    ∃ g1, subscribe n g self = some (g1, { self with deviceName := n, id := (g.heap a).uid_c + 1 }) ∧
      g1.midiInMap = g.midiInMap ∧ g1.nextAddr = g.nextAddr ∧
      (∀ b, b ≠ a → g1.heap b = g.heap b) ∧
      (g1.heap a).port = (g.heap a).port ∧
      (g1.heap a).closePortCalls = (g.heap a).closePortCalls ∧
      (g1.heap a).buffer = (g.heap a).buffer ∧
      (g1.heap a).subscribers = (g.heap a).subscribers + 1 ∧
      (g1.heap a).uid_c = (g.heap a).uid_c + 1 ∧
      (g1.heap a).idMessagesMap = umInsert (g.heap a).idMessagesMap ((g.heap a).uid_c + 1) [] ∧
      (g1.heap a).idStampsMap = umInsert (g.heap a).idStampsMap ((g.heap a).uid_c + 1) [] := by
  unfold subscribe
  by_cases hig : (!self.ignore_midiTime || !self.ignore_midiTime || !self.ignore_midiSense) = true
  · simp only [hig, if_true, umAt_of_eq _ _ _ _ hreg, heapSet_same, MidiInWrapper.add,
      MidiInWrapper.ignoreTypes]
    refine ⟨_, rfl, rfl, rfl, ?_, ?_, ?_, ?_, ?_, ?_, ?_, ?_⟩ <;>
      simp [heapSet, MidiInWrapper.add, MidiInWrapper.ignoreTypes]
    intro b hb
    simp [hb]
  · simp only [hig, Bool.false_eq_true, if_false, umAt_of_eq _ _ _ _ hreg, MidiInWrapper.add]
    refine ⟨_, rfl, rfl, rfl, ?_, ?_, ?_, ?_, ?_, ?_, ?_, ?_⟩ <;>
      simp [heapSet, MidiInWrapper.add]
    intro b hb
    simp [hb]

/-- An unsubscribed handle opening a device that has a live multiplexer just subscribes. -/
theorem openDevice_unsub_live (t : Transport) (n : String) (g : Global) (self : MidiIO) (a : Nat)
    (hid : self.id = -1) (hdn : self.deviceName = "")
    (hreg : g.midiInMap n = some (some a)) :
    openDevice t n g self = subscribe n g self := by
  unfold openDevice
  have hc : ¬ (self.id > 0 ∨ self.deviceName ≠ "") := by
    rw [hid, hdn]; decide
  simp only [hc, if_false, umAt_of_eq _ _ _ _ hreg, umTouch_of_eq _ _ _ _ hreg]

/-- An unsubscribed handle opening a device without live multiplexer, the transport
raising no error: a multiplexer is created at the next free address. -/
theorem openDevice_unsub_create (t : Transport) (n : String) (g : Global) (self : MidiIO)
    (hid : self.id = -1) (hdn : self.deviceName = "")
    (hnull : umAt g.midiInMap n none = none) (hok : t.outcome = RtOutcome.ok) :
    ∃ g1, openDevice t n g self = some (g1, { self with deviceName := n, id := 1 }) ∧
      g1.midiInMap n = some (some g.nextAddr) ∧
      (∀ k, k ≠ n → g1.midiInMap k = g.midiInMap k) ∧
      g1.nextAddr = g.nextAddr + 1 ∧
      (∀ b, b ≠ g.nextAddr → g1.heap b = g.heap b) ∧
      (g1.heap g.nextAddr).port = findPort n t.ports 0 ∧
      (g1.heap g.nextAddr).closePortCalls = 0 ∧
      (g1.heap g.nextAddr).buffer = [] ∧
      (g1.heap g.nextAddr).subscribers = 1 ∧
      (g1.heap g.nextAddr).uid_c = 1 ∧
      (g1.heap g.nextAddr).idMessagesMap = umInsert (fun _ => none) 1 [] ∧
      (g1.heap g.nextAddr).idStampsMap = umInsert (fun _ => none) 1 [] := by
  have hc : ¬ (self.id > 0 ∨ self.deviceName ≠ "") := by
    rw [hid, hdn]; decide
  have hopen : openDevice t n g self =
      subscribe n (tryCreate t n { g with midiInMap := umTouch g.midiInMap n none }).1 self := by
    unfold openDevice
    simp only [hc, if_false, hnull]
    simp [tryCreate, hok]
  have hreg : (tryCreate t n { g with midiInMap := umTouch g.midiInMap n none }).1.midiInMap n =
      some (some g.nextAddr) := by
    simp [tryCreate, hok, umInsert]
  obtain ⟨g1, hsub, hmap, hnext, hoth, hport, hcl, hb, hsubs, huid, hmsg, hst⟩ :=
    subscribe_live n _ self g.nextAddr hreg
  have hw : (tryCreate t n { g with midiInMap := umTouch g.midiInMap n none }).1.heap g.nextAddr =
      (match findPort n t.ports 0 with
        | some i => MidiInWrapper.fresh.openPort i
        | none => MidiInWrapper.fresh) := by
    unfold tryCreate
    rw [hok]
    simp only [heapSet_same]
  have hw2 : ∀ b, b ≠ g.nextAddr →
      (tryCreate t n { g with midiInMap := umTouch g.midiInMap n none }).1.heap b = g.heap b := by
    intro b hb
    simp [tryCreate, hok, heapSet, hb]
  rw [hw] at hsub hport hcl hb hsubs huid hmsg hst
  refine ⟨g1, ?_, ?_, ?_, ?_, ?_, ?_, ?_, ?_, ?_, ?_, ?_, ?_⟩
  · rw [hopen, hsub]
    cases findPort n t.ports 0 <;> simp [MidiInWrapper.fresh, MidiInWrapper.openPort]
  · rw [hmap]; exact hreg
  · intro k hk
    rw [hmap]
    simp [tryCreate, hok, umInsert, hk, umTouch_other _ _ _ _ hk]
  · rw [hnext]; simp [tryCreate, hok]
  · intro b hb
    rw [hoth b hb, hw2 b hb]
  · rw [hport]
    cases findPort n t.ports 0 <;> simp [MidiInWrapper.fresh, MidiInWrapper.openPort]
  · rw [hcl]
    cases findPort n t.ports 0 <;> simp [MidiInWrapper.fresh, MidiInWrapper.openPort]
  · rw [hb]
    cases findPort n t.ports 0 <;> simp [MidiInWrapper.fresh, MidiInWrapper.openPort]
  · rw [hsubs]
    cases findPort n t.ports 0 <;> simp [MidiInWrapper.fresh, MidiInWrapper.openPort]
  · rw [huid]
    cases findPort n t.ports 0 <;> simp [MidiInWrapper.fresh, MidiInWrapper.openPort]
  · rw [hmsg]
    cases findPort n t.ports 0 <;> simp [MidiInWrapper.fresh, MidiInWrapper.openPort]
  · rw [hst]
    cases findPort n t.ports 0 <;> simp [MidiInWrapper.fresh, MidiInWrapper.openPort]

/-- Closing a handle whose device has a live multiplexer. -/
theorem close_live (g : Global) (self : MidiIO) (a : Nat)
    (hreg : g.midiInMap self.deviceName = some (some a)) (hid : 0 ≤ self.id) :
    (close g self).2 = { self with id := -1, deviceName := "" } ∧
      (close g self).1.nextAddr = g.nextAddr ∧
      (∀ b, b ≠ a → (close g self).1.heap b = g.heap b) ∧
      ((close g self).1.heap a).subscribers = (g.heap a).subscribers - 1 ∧
      ((close g self).1.heap a).uid_c = (g.heap a).uid_c ∧
      ((close g self).1.heap a).buffer = (g.heap a).buffer ∧
      ((close g self).1.heap a).idMessagesMap = umErase (g.heap a).idMessagesMap self.id ∧
      ((close g self).1.heap a).idStampsMap = umErase (g.heap a).idStampsMap self.id ∧
      (∀ k, k ≠ self.deviceName → (close g self).1.midiInMap k = g.midiInMap k) ∧
      ((g.heap a).subscribers - 1 = 0 →
        (close g self).1.midiInMap self.deviceName = none ∧
        ((close g self).1.heap a).port = none ∧
        ((close g self).1.heap a).closePortCalls = (g.heap a).closePortCalls + 1) ∧
      ((g.heap a).subscribers - 1 ≠ 0 →
        (close g self).1.midiInMap = g.midiInMap ∧
        ((close g self).1.heap a).port = (g.heap a).port ∧
        ((close g self).1.heap a).closePortCalls = (g.heap a).closePortCalls) := by
  have hlt : ¬ self.id < 0 := by omega
  by_cases h0 : (g.heap a).subscribers - 1 = 0
  · have h1 : ((g.heap a).erase self.id).subscribers = 0 := h0
    have hclose : close g self =
        ({ g with midiInMap := umErase g.midiInMap self.deviceName,
                  heap := heapSet g.heap a ((g.heap a).erase self.id).closePort },
         { self with id := -1, deviceName := "" }) := by
      unfold close
      simp only [umAt_of_eq _ _ _ _ hreg, umTouch_of_eq _ _ _ _ hreg, hlt, if_false, h1, if_true]
    rw [hclose]
    refine ⟨rfl, rfl, ?_, ?_, ?_, ?_, ?_, ?_, ?_, ?_, ?_⟩
    · intro b hb; simp [heapSet, hb]
    · simp [heapSet, MidiInWrapper.closePort, MidiInWrapper.erase]
    · simp [heapSet, MidiInWrapper.closePort, MidiInWrapper.erase]
    · simp [heapSet, MidiInWrapper.closePort, MidiInWrapper.erase]
    · simp [heapSet, MidiInWrapper.closePort, MidiInWrapper.erase]
    · simp [heapSet, MidiInWrapper.closePort, MidiInWrapper.erase]
    · intro k hk; simp [umErase, hk]
    · intro _
      simp [heapSet, MidiInWrapper.closePort, MidiInWrapper.erase, umErase]
    · intro h; exact absurd h0 h
  · have h1 : ¬ ((g.heap a).erase self.id).subscribers = 0 := h0
    have hclose : close g self =
        ({ g with heap := heapSet g.heap a ((g.heap a).erase self.id) },
         { self with id := -1, deviceName := "" }) := by
      unfold close
      simp only [umAt_of_eq _ _ _ _ hreg, umTouch_of_eq _ _ _ _ hreg, hlt, if_false, h1]
    rw [hclose]
    refine ⟨rfl, rfl, ?_, ?_, ?_, ?_, ?_, ?_, ?_, ?_, ?_⟩
    · intro b hb; simp [heapSet, hb]
    · simp [heapSet, MidiInWrapper.erase]
    · simp [heapSet, MidiInWrapper.erase]
    · simp [heapSet, MidiInWrapper.erase]
    · simp [heapSet, MidiInWrapper.erase]
    · simp [heapSet, MidiInWrapper.erase]
    · intro k hk; trivial
    · intro h; exact absurd h h0
    · intro _
      simp [heapSet, MidiInWrapper.erase]

theorem openAll_append (t : Transport) (n : String) (l1 l2 : List Nat) (s : Sys) :
    Sys.openAll t n (l1 ++ l2) s = (Sys.openAll t n l1 s).bind (Sys.openAll t n l2) := by
  induction l1 generalizing s with
  | nil => simp [Sys.openAll]
  | cons x xs ih =>
    simp only [List.cons_append, Sys.openAll]
    cases Sys.openDevice t n x s with
    | none => rfl
    | some s1 => simpa using ih s1

theorem setHandle_same (hs : Nat → MidiIO) (i : Nat) (h : MidiIO) : setHandle hs i h i = h := by
  simp [setHandle]

theorem setHandle_other (hs : Nat → MidiIO) (i x : Nat) (h : MidiIO) (hx : x ≠ i) :
    setHandle hs i h x = hs x := by
  simp [setHandle, hx]

/-- After fresh handles 0..m have opened the device, the multiplexer created by
handle 0 has m+1 subscribers. -/
theorem openAll_range (t : Transport) (n : String) (s : Sys)
    (hok : t.outcome = RtOutcome.ok) (hnull : umAt s.g.midiInMap n none = none) (m : Nat)
    (hfresh : ∀ i, i < m + 1 → (s.handles i).id = -1 ∧ (s.handles i).deviceName = "") :
    ∃ s1, Sys.openAll t n (List.range (m + 1)) s = some s1 ∧
      s1.g.midiInMap n = some (some s.g.nextAddr) ∧
      s1.g.nextAddr = s.g.nextAddr + 1 ∧
      (s1.g.heap s.g.nextAddr).subscribers = (m : Int) + 1 ∧
      (s1.g.heap s.g.nextAddr).uid_c = (m : Int) + 1 ∧
      (s1.g.heap s.g.nextAddr).port = findPort n t.ports 0 ∧
      (s1.g.heap s.g.nextAddr).closePortCalls = 0 ∧
      (∀ i, i < m + 1 → (s1.handles i).deviceName = n ∧ (s1.handles i).id = (i : Int) + 1) ∧
      (∀ i, m + 1 ≤ i → s1.handles i = s.handles i) := by
  induction m with
  | zero =>
    obtain ⟨hid, hdn⟩ := hfresh 0 (by omega)
    obtain ⟨g1, hopen, hmap, _, hnext, _, hport, hcl, _, hsubs, huid, _, _⟩ :=
      openDevice_unsub_create t n s.g (s.handles 0) hid hdn hnull hok
    refine ⟨Sys.mk g1 (setHandle s.handles 0 { (s.handles 0) with deviceName := n, id := 1 }), ?_, hmap, hnext, ?_, ?_, hport, hcl, ?_, ?_⟩
    · simp [Sys.openAll, Sys.openDevice, hopen]
    · simpa using hsubs
    · simpa using huid
    · intro i hi
      have : i = 0 := by omega
      subst this
      simp [setHandle]
    · intro i hi
      have : i ≠ 0 := by omega
      simp [setHandle, this]
  | succ m ih =>
    obtain ⟨s1, hrun, hmap, hnext, hsubs, huid, hport, hcl, hopened, hrest⟩ :=
      ih (fun i hi => hfresh i (by omega))
    obtain ⟨hid, hdn⟩ := hfresh (m + 1) (by omega)
    have hsame : s1.handles (m + 1) = s.handles (m + 1) := hrest (m + 1) (le_refl _)
    rw [← hsame] at hid hdn
    have hopen := openDevice_unsub_live t n s1.g (s1.handles (m + 1)) s.g.nextAddr hid hdn hmap
    obtain ⟨g2, hsub, hmap2, hnext2, _, hport2, hcl2, _, hsubs2, huid2, _, _⟩ :=
      subscribe_live n s1.g (s1.handles (m + 1)) s.g.nextAddr hmap
    refine ⟨Sys.mk g2 (setHandle s1.handles (m + 1)
        { (s1.handles (m + 1)) with deviceName := n, id := (s1.g.heap s.g.nextAddr).uid_c + 1 }),
      ?_, ?_, ?_, ?_, ?_, ?_, ?_, ?_, ?_⟩
    · rw [List.range_succ, openAll_append, hrun]
      simp [Sys.openAll, Sys.openDevice, hopen, hsub]
    · show g2.midiInMap n = _
      rw [hmap2]; exact hmap
    · show g2.nextAddr = _
      rw [hnext2]; exact hnext
    · show (g2.heap s.g.nextAddr).subscribers = _
      rw [hsubs2, hsubs]; push_cast; ring
    · show (g2.heap s.g.nextAddr).uid_c = _
      rw [huid2, huid]; push_cast; ring
    · show (g2.heap s.g.nextAddr).port = _
      rw [hport2]; exact hport
    · show (g2.heap s.g.nextAddr).closePortCalls = _
      rw [hcl2]; exact hcl
    · intro i hi
      by_cases him : i = m + 1
      · subst him
        simp only [setHandle_same, true_and]
        rw [huid]; push_cast; ring
      · simp only [setHandle_other _ _ _ _ him]
        exact hopened i (by omega)
    · intro i hi
      have him : i ≠ m + 1 := by omega
      simp only [setHandle_other _ _ _ _ him]
      exact hrest i (by omega)

/-- Closing, one after the other, distinct handles subscribed to the device while
more subscribers remain keeps the multiplexer registered and its port untouched. -/
theorem closeAll_keeps (n : String) (a : Nat) (cl : List Nat) :
    ∀ (s : Sys) (c : Int), s.g.midiInMap n = some (some a) →
      (s.g.heap a).subscribers = c → cl.Nodup →
      (∀ x ∈ cl, (s.handles x).deviceName = n ∧ 0 ≤ (s.handles x).id) →
      (cl.length : Int) < c →
      (Sys.closeAll cl s).g.midiInMap n = some (some a) ∧
      (Sys.closeAll cl s).g.nextAddr = s.g.nextAddr ∧
      ((Sys.closeAll cl s).g.heap a).subscribers = c - cl.length ∧
      ((Sys.closeAll cl s).g.heap a).port = (s.g.heap a).port ∧
      ((Sys.closeAll cl s).g.heap a).closePortCalls = (s.g.heap a).closePortCalls ∧
      (∀ x, x ∉ cl → (Sys.closeAll cl s).handles x = s.handles x) ∧
      (∀ x ∈ cl, ((Sys.closeAll cl s).handles x).id = -1 ∧
        ((Sys.closeAll cl s).handles x).deviceName = "") := by
  induction cl with
  | nil =>
    intro s c hmap hsubs _ _ _
    simp [Sys.closeAll, hmap, hsubs]
  | cons y ys ih =>
    intro s c hmap hsubs hnd hall hlen
    obtain ⟨hdn, hid⟩ := hall y (by simp)
    have hreg : s.g.midiInMap (s.handles y).deviceName = some (some a) := by rw [hdn]; exact hmap
    obtain ⟨hh, hnext, _, hs1, _, _, _, _, _, _, hkeep⟩ := close_live s.g (s.handles y) a hreg hid
    have hne : (s.g.heap a).subscribers - 1 ≠ 0 := by
      rw [hsubs]
      simp only [List.length_cons] at hlen
      push_cast at hlen
      omega
    obtain ⟨hmap1, hport1, hcl1⟩ := hkeep hne
    have hynd : y ∉ ys := (List.nodup_cons.mp hnd).1
    have hysnd : ys.Nodup := (List.nodup_cons.mp hnd).2
    have hother : ∀ x, x ≠ y → (Sys.close y s).handles x = s.handles x := by
      intro x hx
      simp [Sys.close, setHandle, hx]
    have hself : (Sys.close y s).handles y = { (s.handles y) with id := -1, deviceName := "" } := by
      simp [Sys.close, setHandle, hh]
    have hall1 : ∀ x ∈ ys, ((Sys.close y s).handles x).deviceName = n ∧
        0 ≤ ((Sys.close y s).handles x).id := by
      intro x hx
      have hxy : x ≠ y := fun e => hynd (e ▸ hx)
      rw [hother x hxy]
      exact hall x (by simp [hx])
    have hmapS : (Sys.close y s).g.midiInMap n = some (some a) := by
      show (close s.g (s.handles y)).1.midiInMap n = _
      rw [hmap1]; exact hmap
    have hsubsS : ((Sys.close y s).g.heap a).subscribers = c - 1 := by
      show ((close s.g (s.handles y)).1.heap a).subscribers = _
      rw [hs1, hsubs]
    have hlen1 : (ys.length : Int) < c - 1 := by
      simp only [List.length_cons] at hlen
      push_cast at hlen
      omega
    obtain ⟨r1, r2, r3, r4, r5, r6, r7⟩ := ih (Sys.close y s) (c - 1) hmapS hsubsS hysnd hall1 hlen1
    simp only [Sys.closeAll]
    refine ⟨r1, ?_, ?_, ?_, ?_, ?_, ?_⟩
    · rw [r2]; exact hnext
    · rw [r3]; simp only [List.length_cons]; push_cast; ring
    · rw [r4]; exact hport1
    · rw [r5]; exact hcl1
    · intro x hx
      have hxy : x ≠ y := fun e => hx (by simp [e])
      have hxys : x ∉ ys := fun e => hx (by simp [e])
      rw [r6 x hxys, hother x hxy]
    · intro x hx
      rcases List.mem_cons.mp hx with h | h
      · subst h
        rw [r6 x hynd, hself]
        exact ⟨rfl, rfl⟩
      · exact r7 x h

/-! ## C3: reference counting -/

/-- C3. Fresh handles 0..k-1 open the enumerated device `n`, which has no live
multiplexer yet; `cl ++ [j]` is any order in which they close. The opens create one
multiplexer (at the next free address) and succeed; after the k-1 closes of `cl`
the registry still maps `n` to that multiplexer, its port is open and was never
closed and its subscriber count is 1; after the close of `j` the port has been
closed once and `n` is no longer a key of `midiInMap`; `openDevice(n)` by any
handle `i` of them then creates another multiplexer with an open port and leaves
the handle subscribed to `n` with a queue of its own. -/
theorem reference_counting (t : Transport) (n : String) (s : Sys) (k : Nat) (cl : List Nat)
    (j i : Nat)
    (hok : t.outcome = RtOutcome.ok) (hn : n ∈ getDevices t) (hk : 1 ≤ k)
    (hnull : s.g.find n = none)
    (hfresh : ∀ x, x < k → (s.handles x).id = -1 ∧ (s.handles x).deviceName = "")
    (hperm : (cl ++ [j]).Perm (List.range k)) (hi : i < k) :
    ∃ s1, Sys.openAll t n (List.range k) s = some s1 ∧
      s1.g.midiInMap n = some (some s.g.nextAddr) ∧
      (Sys.closeAll cl s1).g.midiInMap n = some (some s.g.nextAddr) ∧
      ((Sys.closeAll cl s1).g.heap s.g.nextAddr).port.isSome = true ∧
      ((Sys.closeAll cl s1).g.heap s.g.nextAddr).closePortCalls = 0 ∧
      ((Sys.closeAll cl s1).g.heap s.g.nextAddr).subscribers = 1 ∧
      ((Sys.close j (Sys.closeAll cl s1)).g.heap s.g.nextAddr).closePortCalls = 1 ∧
      ((Sys.close j (Sys.closeAll cl s1)).g.heap s.g.nextAddr).port = none ∧
      (Sys.close j (Sys.closeAll cl s1)).g.midiInMap n = none ∧
      ∃ s4 b, Sys.openDevice t n i (Sys.close j (Sys.closeAll cl s1)) = some s4 ∧
        b ≠ s.g.nextAddr ∧ s4.g.midiInMap n = some (some b) ∧
        (s4.g.heap b).port.isSome = true ∧ (s4.g.heap b).closePortCalls = 0 ∧
        (s4.g.heap b).subscribers = 1 ∧
        getDeviceName (s4.handles i) = n ∧ isPortOpen (s4.handles i) = true ∧
        (s4.g.heap b).idMessagesMap (s4.handles i).id = some [] := by
  obtain ⟨m, rfl⟩ : ∃ m, k = m + 1 := ⟨k - 1, by omega⟩
  obtain ⟨p, hp⟩ := findPort_isSome n t.ports 0 hn
  obtain ⟨s1, hrun, hmap, hnext, hsubs, _, hport, hcl, hopened, _⟩ :=
    openAll_range t n s hok hnull m hfresh
  have hnd : (cl ++ [j]).Nodup := hperm.nodup_iff.mpr (List.nodup_range _)
  have hmem : ∀ x, x ∈ cl ++ [j] ↔ x < m + 1 := by
    intro x
    rw [hperm.mem_iff, List.mem_range]
  have hlen : cl.length + 1 = m + 1 := by
    have := hperm.length_eq
    simpa using this
  have hcln : cl.Nodup := (List.nodup_append.mp hnd).1
  have hjcl : j ∉ cl := by
    intro h
    exact (List.nodup_append.mp hnd).2.2 h (by simp)
  have hjk : j < m + 1 := (hmem j).mp (by simp)
  have hclk : ∀ x ∈ cl, x < m + 1 := fun x hx => (hmem x).mp (by simp [hx])
  obtain ⟨r1, r2, r3, r4, r5, r6, r7⟩ := closeAll_keeps n s.g.nextAddr cl s1 ((m : Int) + 1) hmap
    hsubs hcln
    (fun x hx => ⟨(hopened x (hclk x hx)).1, by rw [(hopened x (hclk x hx)).2]; omega⟩)
    (by omega)
  have hsubs2 : ((Sys.closeAll cl s1).g.heap s.g.nextAddr).subscribers = 1 := by
    rw [r3]; omega
  -- the last subscriber closes
  have hj2 : (Sys.closeAll cl s1).handles j = s1.handles j := r6 j hjcl
  have hjdn : ((Sys.closeAll cl s1).handles j).deviceName = n := by
    rw [hj2]; exact (hopened j hjk).1
  have hjid : 0 ≤ ((Sys.closeAll cl s1).handles j).id := by
    rw [hj2, (hopened j hjk).2]; omega
  have hreg2 : (Sys.closeAll cl s1).g.midiInMap ((Sys.closeAll cl s1).handles j).deviceName =
      some (some s.g.nextAddr) := by rw [hjdn]; exact r1
  obtain ⟨c1, c2, _, _, _, _, _, _, _, c10, _⟩ :=
    close_live (Sys.closeAll cl s1).g ((Sys.closeAll cl s1).handles j) s.g.nextAddr hreg2 hjid
  obtain ⟨d1, d2, d3⟩ := c10 (by rw [hsubs2]; norm_num)
  rw [hjdn] at d1
  have e1 : (Sys.close j (Sys.closeAll cl s1)).g.midiInMap n = none := d1
  have e2 : ((Sys.close j (Sys.closeAll cl s1)).g.heap s.g.nextAddr).port = none := d2
  have e3 : ((Sys.close j (Sys.closeAll cl s1)).g.heap s.g.nextAddr).closePortCalls = 1 := by
    show ((close _ _).1.heap s.g.nextAddr).closePortCalls = 1
    rw [d3, r5, hcl]
  have e4 : (Sys.close j (Sys.closeAll cl s1)).g.nextAddr = s.g.nextAddr + 1 := by
    show (close _ _).1.nextAddr = _
    rw [c2, r2, hnext]
  -- handle i is unsubscribed again
  have hiu : ((Sys.close j (Sys.closeAll cl s1)).handles i).id = -1 ∧
      ((Sys.close j (Sys.closeAll cl s1)).handles i).deviceName = "" := by
    by_cases hij : i = j
    · subst hij
      have : (Sys.close i (Sys.closeAll cl s1)).handles i =
          (close (Sys.closeAll cl s1).g ((Sys.closeAll cl s1).handles i)).2 := by
        simp [Sys.close, setHandle]
      rw [this, c1]
      exact ⟨rfl, rfl⟩
    · have hicl : i ∈ cl := by
        have := (hmem i).mpr hi
        rcases List.mem_append.mp this with h | h
        · exact h
        · exact absurd (List.mem_singleton.mp h) hij
      have : (Sys.close j (Sys.closeAll cl s1)).handles i = (Sys.closeAll cl s1).handles i := by
        simp [Sys.close, setHandle, hij]
      rw [this]
      exact r7 i hicl
  have hnull3 : umAt (Sys.close j (Sys.closeAll cl s1)).g.midiInMap n none = none := by
    simp [umAt, e1]
  obtain ⟨g4, o1, o2, _, _, _, o6, o7, _, o9, _, o11, _⟩ :=
    openDevice_unsub_create t n (Sys.close j (Sys.closeAll cl s1)).g
      ((Sys.close j (Sys.closeAll cl s1)).handles i) hiu.1 hiu.2 hnull3 hok
  rw [e4] at o2 o6 o7 o9 o11
  refine ⟨s1, hrun, hmap, r1, ?_, ?_, hsubs2, e3, e2, e1, ?_⟩
  · rw [r4, hport, hp]; rfl
  · rw [r5, hcl]
  · refine ⟨Sys.mk g4 (setHandle (Sys.close j (Sys.closeAll cl s1)).handles i
        { ((Sys.close j (Sys.closeAll cl s1)).handles i) with deviceName := n, id := 1 }),
      s.g.nextAddr + 1, ?_, by omega, ?_, ?_, ?_, ?_, ?_, ?_, ?_⟩
    · simp only [Sys.openDevice, o1, Option.map_some']
    · exact o2
    · show (g4.heap (s.g.nextAddr + 1)).port.isSome = true
      rw [o6, hp]; rfl
    · exact o7
    · exact o9
    · simp [getDeviceName, setHandle]
    · simp [isPortOpen, setHandle]
    · show (g4.heap (s.g.nextAddr + 1)).idMessagesMap (setHandle _ _ _ i).id = some []
      rw [o11]
      simp [setHandle, umInsert]

/-- Witness for C3: three handles on D2, closing in the order 2, 0, 1; handle 0 reopens. -/
theorem reference_counting_witness :
    ∃ s1, Sys.openAll { ports := ["D1", "D2"], outcome := RtOutcome.ok } "D2" (List.range 3)
        Sys.init = some s1 ∧
      s1.g.midiInMap "D2" = some (some Sys.init.g.nextAddr) ∧
      (Sys.closeAll [2, 0] s1).g.midiInMap "D2" = some (some Sys.init.g.nextAddr) ∧
      ((Sys.closeAll [2, 0] s1).g.heap Sys.init.g.nextAddr).port.isSome = true ∧
      ((Sys.closeAll [2, 0] s1).g.heap Sys.init.g.nextAddr).closePortCalls = 0 ∧
      ((Sys.closeAll [2, 0] s1).g.heap Sys.init.g.nextAddr).subscribers = 1 ∧
      ((Sys.close 1 (Sys.closeAll [2, 0] s1)).g.heap Sys.init.g.nextAddr).closePortCalls = 1 ∧
      ((Sys.close 1 (Sys.closeAll [2, 0] s1)).g.heap Sys.init.g.nextAddr).port = none ∧
      (Sys.close 1 (Sys.closeAll [2, 0] s1)).g.midiInMap "D2" = none ∧
      ∃ s4 b, Sys.openDevice { ports := ["D1", "D2"], outcome := RtOutcome.ok } "D2" 0
          (Sys.close 1 (Sys.closeAll [2, 0] s1)) = some s4 ∧
        b ≠ Sys.init.g.nextAddr ∧ s4.g.midiInMap "D2" = some (some b) ∧
        (s4.g.heap b).port.isSome = true ∧ (s4.g.heap b).closePortCalls = 0 ∧
        (s4.g.heap b).subscribers = 1 ∧
        getDeviceName (s4.handles 0) = "D2" ∧ isPortOpen (s4.handles 0) = true ∧
        (s4.g.heap b).idMessagesMap (s4.handles 0).id = some [] :=
  reference_counting { ports := ["D1", "D2"], outcome := RtOutcome.ok } "D2" Sys.init 3 [2, 0] 1 0
    rfl (by decide) (by decide) rfl (fun _ _ => ⟨rfl, rfl⟩) (by decide) (by decide)

/-! ## Closing and opening in sequence -/

theorem umTouch_apply {κ α : Type} [DecidableEq κ] (m : κ → Option α) (k x : κ) (d : α) :
    umTouch m k d x = if x = k then some (umAt m k d) else m x := by
  unfold umTouch umAt
  cases hk : m k with
  | none =>
    by_cases hx : x = k
    · simp [umInsert, hx]
    · simp [umInsert, hx]
  | some v =>
    by_cases hx : x = k
    · subst hx; simp [hk]
    · simp [hx]

/-- Lookup after `operator[]` on a registry of pointers. -/
theorem umAt_umTouch_ptr (m : String → Option Ptr) (k x : String) :
    umAt (umTouch m k none) x none = umAt m x none := umAt_umTouch m k x none

/-- Evaluating `midiInMap[n]` before or after `close()` makes no difference when `n`
is not the name held by the handle. -/
theorem close_touch (g : Global) (self : MidiIO) (n : String) (hne : self.deviceName ≠ n) :
    close { g with midiInMap := umTouch g.midiInMap n none } self =
      ({ (close g self).1 with midiInMap := umTouch (close g self).1.midiInMap n none },
       (close g self).2) := by
  have hne2 : n ≠ self.deviceName := fun h => hne h.symm
  unfold close
  simp only [umAt_umTouch_ptr]
  cases hmw : umAt g.midiInMap self.deviceName none with
  | none =>
    simp only []
    congr 2
    funext x
    simp only [umTouch_apply, umAt_umTouch_ptr]
    by_cases h1 : x = self.deviceName
    · by_cases h2 : x = n
      · exact absurd (h1.symm.trans h2) hne
      · simp [h1, hne, hmw, umAt, umTouch_apply]
    · by_cases h2 : x = n
      · simp [h1, h2, hne2, umAt, umTouch_apply]
      · simp [h1, h2]
  | some a =>
    have hmap1 : umTouch (umTouch g.midiInMap n none) self.deviceName none =
        umTouch (umTouch g.midiInMap self.deviceName none) n none := by
      funext x
      simp only [umTouch_apply, umAt_umTouch_ptr]
      by_cases h1 : x = self.deviceName
      · by_cases h2 : x = n
        · exact absurd (h1.symm.trans h2) hne
        · simp [h1, hne, umAt, umTouch_apply]
      · by_cases h2 : x = n
        · simp [h2, hne2, umAt, umTouch_apply]
        · simp [h1, h2]
    have hmap2 : umErase (umTouch (umTouch g.midiInMap n none) self.deviceName none)
        self.deviceName =
        umTouch (umErase (umTouch g.midiInMap self.deviceName none) self.deviceName) n none := by
      funext x
      simp only [umTouch_apply, umErase, umAt_umTouch_ptr]
      by_cases h1 : x = self.deviceName
      · by_cases h2 : x = n
        · exact absurd (h1.symm.trans h2) hne
        · simp [h1, hne]
      · by_cases h2 : x = n
        · simp [h2, hne2, umAt, umTouch_apply, umErase]
        · simp [h1, h2]
    simp only []
    by_cases hid : self.id < 0
    · simp only [hid, if_true, hmap1]
    · simp only [hid, if_false]
      by_cases h0 : ((g.heap a).erase self.id).subscribers = 0
      · simp only [h0, if_true, hmap2]
      · simp only [h0, if_false, hmap1]

/-- A handle subscribed to another device: `openDevice` does what `close()`
followed by `openDevice` on the then unsubscribed handle does. -/
theorem openDevice_closes_first (t : Transport) (n : String) (g : Global) (self : MidiIO)
    (a : Nat) (hne : self.deviceName ≠ n) (hid : 0 < self.id)
    (hreg : g.midiInMap self.deviceName = some (some a)) :
    openDevice t n g self = openDevice t n (close g self).1 (close g self).2 := by
  obtain ⟨c1, _, _, _, _, _, _, _, c9, _, _⟩ := close_live g self a hreg (le_of_lt hid)
  have hmw : umAt (close g self).1.midiInMap n none = umAt g.midiInMap n none := by
    unfold umAt
    rw [c9 n (fun h => hne h.symm)]
  have hc : self.id > 0 ∨ self.deviceName ≠ "" := Or.inl hid
  have hc2 : ¬ ((close g self).2.id > 0 ∨ (close g self).2.deviceName ≠ "") := by
    rw [c1]; simp
  unfold openDevice
  simp only [hc, hc2, if_true, if_false, hmw, close_touch g self n hne]

/-- Closing a handle whose id is negative only evaluates `midiInMap[deviceName]`. -/
theorem close_negative_id (g : Global) (self : MidiIO) (hid : self.id < 0) :
    close g self = ({ g with midiInMap := umTouch g.midiInMap self.deviceName none }, self) := by
  unfold close
  cases umAt g.midiInMap self.deviceName none with
  | none => rfl
  | some a => simp only [hid, if_true]

theorem find_touch (g : Global) (k x : String) :
    Global.find { g with midiInMap := umTouch g.midiInMap k none } x = g.find x := by
  unfold Global.find
  exact umAt_umTouch_ptr g.midiInMap k x

/-- An unsubscribed handle whose `openDevice` ends in the `RtMidiError` branch. -/
theorem openDevice_unsub_fail (t : Transport) (n : String) (g : Global) (self : MidiIO)
    (hfail : t.outcome ≠ RtOutcome.ok) (hnull : g.find n = none)
    (hid : self.id = -1) (hdn : self.deviceName = "") :
    ∃ g1, openDevice t n g self = some (g1, self) ∧
      (∀ b, b ≠ g.nextAddr → g1.heap b = g.heap b) ∧
      (∀ k, k ≠ n → g1.find k = g.find k) := by
  have hc : ¬ (self.id > 0 ∨ self.deviceName ≠ "") := by
    rw [hid, hdn]; decide
  have hnull2 : umAt g.midiInMap n none = none := hnull
  unfold openDevice
  simp only [hc, if_false, hnull2]
  cases ho : t.outcome with
  | ok => exact absurd ho hfail
  | throwInCtor =>
    simp only [tryCreate, ho, if_true]
    refine ⟨_, rfl, ?_, ?_⟩
    · intro b _; rfl
    · intro k _
      exact find_touch g n k
  | throwInPortLoop =>
    simp only [tryCreate, ho, if_true]
    refine ⟨_, rfl, ?_, ?_⟩
    · intro b hb
      simp [heapSet, hb]
    · intro k hk
      simp [Global.find, umAt, umInsert, hk, umTouch_other _ _ _ _ hk]

/-! ## C7: a failed open leaves the handle unsubscribed -/

/-- C7. The handle is unsubscribed, or subscribed to a device with a live
multiplexer; `openDevice(n)` reaches the `RtMidiError` branch (no live multiplexer
under `n`, the transport throws). Then the call returns normally, the handle has the
empty name and the id -1 and is the handle `close()` would have left, and all
multiplexers and the live registry entries of the other names are those that
`close()` would have left. -/
theorem openDevice_failure_leaves_unsubscribed (t : Transport) (n : String) (g : Global)
    (self : MidiIO)
    (hfail : t.outcome ≠ RtOutcome.ok) (hnull : g.find n = none)
    (hself : (self.id = -1 ∧ self.deviceName = "") ∨
      (0 < self.id ∧ ∃ a, g.midiInMap self.deviceName = some (some a))) :
    ∃ g1 h1, openDevice t n g self = some (g1, h1) ∧
      getDeviceName h1 = "" ∧ h1.id = -1 ∧ isPortOpen h1 = false ∧
      h1 = (close g self).2 ∧
      (∀ b, b ≠ g.nextAddr → g1.heap b = (close g self).1.heap b) ∧
      (∀ k, k ≠ n → g1.find k = (close g self).1.find k) := by
  rcases hself with ⟨hid, hdn⟩ | ⟨hid, a, hreg⟩
  · obtain ⟨g1, hopen, hheap, hfind⟩ := openDevice_unsub_fail t n g self hfail hnull hid hdn
    have hcl := close_negative_id g self (by rw [hid]; decide)
    refine ⟨g1, self, hopen, ?_, hid, ?_, ?_, ?_, ?_⟩
    · exact hdn
    · simp [isPortOpen, hid]
    · rw [hcl]
    · intro b hb
      rw [hcl]; exact hheap b hb
    · intro k hk
      rw [hcl, find_touch]; exact hfind k hk
  · have hne : self.deviceName ≠ n := by
      intro h
      rw [h] at hreg
      simp [Global.find, umAt, hreg] at hnull
    obtain ⟨c1, c2, _, _, _, _, _, _, c9, _, _⟩ := close_live g self a hreg (le_of_lt hid)
    have hnull2 : (close g self).1.find n = none := by
      unfold Global.find umAt
      rw [c9 n (fun h => hne h.symm)]
      exact hnull
    obtain ⟨g1, hopen, hheap, hfind⟩ := openDevice_unsub_fail t n (close g self).1 (close g self).2
      hfail hnull2 (by rw [c1]) (by rw [c1])
    rw [c2] at hheap
    refine ⟨g1, (close g self).2, ?_, ?_, ?_, ?_, rfl, hheap, hfind⟩
    · rw [openDevice_closes_first t n g self a hne hid hreg]; exact hopen
    · rw [c1]; rfl
    · rw [c1]
    · rw [c1]; rfl

/-- Witness for C7: the sole subscriber of D1 opens D2 while the transport fails. -/
theorem openDevice_failure_leaves_unsubscribed_witness :
    ∃ g1 h1, openDevice failingTransport "D2" oneOnD1.g (oneOnD1.handles 0) = some (g1, h1) ∧
      getDeviceName h1 = "" ∧ h1.id = -1 ∧ isPortOpen h1 = false ∧
      h1 = (close oneOnD1.g (oneOnD1.handles 0)).2 ∧
      (∀ b, b ≠ oneOnD1.g.nextAddr → g1.heap b = (close oneOnD1.g (oneOnD1.handles 0)).1.heap b) ∧
      (∀ k, k ≠ "D2" → g1.find k = (close oneOnD1.g (oneOnD1.handles 0)).1.find k) :=
  openDevice_failure_leaves_unsubscribed failingTransport "D2" oneOnD1.g (oneOnD1.handles 0)
    (by decide) (by decide) (Or.inr ⟨by decide, 0, by decide⟩)

theorem find_eq_some (g : Global) (k : String) (b : Nat) (h : g.find k = some b) :
    g.midiInMap k = some (some b) := by
  unfold Global.find umAt at h
  cases hk : g.midiInMap k with
  | none => simp [hk] at h
  | some p => simp only [hk] at h; rw [h]

/-! ## C8: opening another device closes the old subscription first -/

/-- C8. A handle subscribed to `A` (multiplexer at `a`) opens `B`, the transport
raising no error. The call does what `close()` followed by `openDevice(B)` does:
the multiplexer of `A` loses the queues of the handle id and one subscriber, its
port is closed and `A` removed from `midiInMap` exactly when the count reached 0,
and the handle ends up subscribed to `B`, with an empty queue of its own in the
multiplexer of `B`, whose subscriber count has grown by one. -/
theorem openDevice_other_device_closes_first (t : Transport) (A B : String) (g : Global)
    (self : MidiIO) (a : Nat)
    (hAB : A ≠ B) (hok : t.outcome = RtOutcome.ok)
    (hdn : getDeviceName self = A) (hid : 0 < self.id)
    (hreg : g.midiInMap A = some (some a)) (ha : a < g.nextAddr) (halias : g.find B ≠ some a) :
    ∃ g1 h1 b, openDevice t B g self = some (g1, h1) ∧
      openDevice t B g self = openDevice t B (close g self).1 (close g self).2 ∧
      (g1.heap a).idMessagesMap = umErase (g.heap a).idMessagesMap self.id ∧
      (g1.heap a).idStampsMap = umErase (g.heap a).idStampsMap self.id ∧
      (g1.heap a).subscribers = (g.heap a).subscribers - 1 ∧
      ((g.heap a).subscribers - 1 = 0 →
        g1.midiInMap A = none ∧ (g1.heap a).port = none ∧
        (g1.heap a).closePortCalls = (g.heap a).closePortCalls + 1) ∧
      ((g.heap a).subscribers - 1 ≠ 0 →
        g1.midiInMap A = some (some a) ∧ (g1.heap a).port = (g.heap a).port ∧
        (g1.heap a).closePortCalls = (g.heap a).closePortCalls) ∧
      b ≠ a ∧ g1.midiInMap B = some (some b) ∧ getDeviceName h1 = B ∧
      (g1.heap b).idMessagesMap h1.id = some [] ∧
      (g1.heap b).subscribers = g.subscribersOf B + 1 := by
  have hdn2 : self.deviceName = A := hdn
  have hregs : g.midiInMap self.deviceName = some (some a) := by rw [hdn2]; exact hreg
  have hne : self.deviceName ≠ B := by rw [hdn2]; exact hAB
  have hfirst := openDevice_closes_first t B g self a hne hid hregs
  obtain ⟨c1, c2, c3, c4, _, _, c7, c8, c9, c10, c11⟩ := close_live g self a hregs (le_of_lt hid)
  rw [hdn2] at c9 c10
  have hfindB : (close g self).1.find B = g.find B := by
    unfold Global.find umAt
    rw [c9 B (fun h => hAB h.symm)]
  have hu1 : (close g self).2.id = -1 := by rw [c1]
  have hu2 : (close g self).2.deviceName = "" := by rw [c1]
  cases hB : g.find B with
  | none =>
    have hnull : umAt (close g self).1.midiInMap B none = none := by
      have := hfindB
      rw [hB] at this
      exact this
    obtain ⟨g1, o1, o2, o3, _, o5, _, _, _, o9, _, o11, _⟩ :=
      openDevice_unsub_create t B (close g self).1 (close g self).2 hu1 hu2 hnull hok
    rw [c2] at o2 o5 o9 o11
    have hab : a ≠ g.nextAddr := by omega
    have hka : g1.heap a = (close g self).1.heap a := o5 a hab
    refine ⟨g1, { (close g self).2 with deviceName := B, id := 1 }, g.nextAddr, ?_, hfirst, ?_, ?_, ?_, ?_, ?_, fun h => hab h.symm, o2, rfl, ?_, ?_⟩
    · rw [hfirst]; exact o1
    · rw [hka]; exact c7
    · rw [hka]; exact c8
    · rw [hka]; exact c4
    · intro h0
      obtain ⟨d1, d2, d3⟩ := c10 h0
      rw [o3 A hAB, hka]
      exact ⟨d1, d2, d3⟩
    · intro h0
      obtain ⟨d1, d2, d3⟩ := c11 h0
      rw [o3 A hAB, hka, d1]
      exact ⟨hreg, d2, d3⟩
    · rw [o11]; simp [umInsert]
    · rw [o9]; simp [Global.subscribersOf, hB]
  | some b =>
    have hba : b ≠ a := by
      intro h
      rw [h] at hB
      exact halias hB
    have hregB : (close g self).1.midiInMap B = some (some b) := by
      apply find_eq_some
      rw [hfindB]; exact hB
    have hopen := openDevice_unsub_live t B (close g self).1 (close g self).2 b hu1 hu2 hregB
    obtain ⟨g1, s1, s2, _, s4, _, _, _, s8, _, s10, _⟩ :=
      subscribe_live B (close g self).1 (close g self).2 b hregB
    have hka : g1.heap a = (close g self).1.heap a := s4 a (fun h => hba h.symm)
    refine ⟨g1, { (close g self).2 with
        deviceName := B
        id := ((close g self).1.heap b).uid_c + 1 }, b, ?_, hfirst, ?_, ?_, ?_, ?_, ?_, hba, ?_, rfl, ?_, ?_⟩
    · rw [hfirst, hopen]; exact s1
    · rw [hka]; exact c7
    · rw [hka]; exact c8
    · rw [hka]; exact c4
    · intro h0
      obtain ⟨d1, d2, d3⟩ := c10 h0
      rw [s2, hka]
      exact ⟨d1, d2, d3⟩
    · intro h0
      obtain ⟨d1, d2, d3⟩ := c11 h0
      rw [s2, hka, d1]
      exact ⟨hreg, d2, d3⟩
    · rw [s2]; exact hregB
    · rw [s10]; simp [umInsert]
    · rw [s8, c3 b hba]; simp [Global.subscribersOf, hB]

/-- Witness for C8: handle 0 moves from D1 to D2, where handle 1 is subscribed. -/
theorem openDevice_other_device_closes_first_witness :
    ∃ g1 h1 b, openDevice demoTransport "D2" oneOnD1oneOnD2.g (oneOnD1oneOnD2.handles 0) =
        some (g1, h1) ∧
      openDevice demoTransport "D2" oneOnD1oneOnD2.g (oneOnD1oneOnD2.handles 0) =
        openDevice demoTransport "D2" (close oneOnD1oneOnD2.g (oneOnD1oneOnD2.handles 0)).1
          (close oneOnD1oneOnD2.g (oneOnD1oneOnD2.handles 0)).2 ∧
      (g1.heap 0).idMessagesMap =
        umErase (oneOnD1oneOnD2.g.heap 0).idMessagesMap (oneOnD1oneOnD2.handles 0).id ∧
      (g1.heap 0).idStampsMap =
        umErase (oneOnD1oneOnD2.g.heap 0).idStampsMap (oneOnD1oneOnD2.handles 0).id ∧
      (g1.heap 0).subscribers = (oneOnD1oneOnD2.g.heap 0).subscribers - 1 ∧
      ((oneOnD1oneOnD2.g.heap 0).subscribers - 1 = 0 →
        g1.midiInMap "D1" = none ∧ (g1.heap 0).port = none ∧
        (g1.heap 0).closePortCalls = (oneOnD1oneOnD2.g.heap 0).closePortCalls + 1) ∧
      ((oneOnD1oneOnD2.g.heap 0).subscribers - 1 ≠ 0 →
        g1.midiInMap "D1" = some (some 0) ∧ (g1.heap 0).port = (oneOnD1oneOnD2.g.heap 0).port ∧
        (g1.heap 0).closePortCalls = (oneOnD1oneOnD2.g.heap 0).closePortCalls) ∧
      b ≠ 0 ∧ g1.midiInMap "D2" = some (some b) ∧ getDeviceName h1 = "D2" ∧
      (g1.heap b).idMessagesMap h1.id = some [] ∧
      (g1.heap b).subscribers = oneOnD1oneOnD2.g.subscribersOf "D2" + 1 :=
  openDevice_other_device_closes_first demoTransport "D1" "D2" oneOnD1oneOnD2.g
    (oneOnD1oneOnD2.handles 0) 0 (by decide) rfl (by decide) (by decide) (by decide) (by decide)
    (by decide)

/-! ## Amended statements -/

/-- Closing a handle whose name has no live multiplexer only evaluates `midiInMap[deviceName]`. -/
theorem close_null (g : Global) (self : MidiIO) (h : g.find self.deviceName = none) :
    close g self = ({ g with midiInMap := umTouch g.midiInMap self.deviceName none }, self) := by
  have h2 : umAt g.midiInMap self.deviceName none = none := h
  unfold close
  simp only [h2]

/-! ## C9: closing twice -/

/-- C9 (amended). In every state and for every handle, a second `close()` leaves
the handle, every multiplexer and, for every name, the multiplexer that the registry
yields for it (null when there is none) as the first `close()` left them; and
`close()` on an unsubscribed handle (id -1, empty name) leaves the handle, every
multiplexer and the multiplexer the registry yields for every name unchanged. -/
theorem close_idempotent_on_live_registry (g : Global) (self : MidiIO) :
    (close (close g self).1 (close g self).2).2 = (close g self).2 ∧
    (close (close g self).1 (close g self).2).1.heap = (close g self).1.heap ∧
    (∀ k, (close (close g self).1 (close g self).2).1.find k = (close g self).1.find k) ∧
    (self.id = -1 → getDeviceName self = "" →
      (close g self).2 = self ∧ (close g self).1.heap = g.heap ∧
      ∀ k, (close g self).1.find k = g.find k) := by
  have hsecond : ∀ (g0 : Global) (h0 : MidiIO), h0.id < 0 ∨ g0.find h0.deviceName = none →
      (close g0 h0).2 = h0 ∧ (close g0 h0).1.heap = g0.heap ∧
      ∀ k, (close g0 h0).1.find k = g0.find k := by
    intro g0 h0 hh
    have hc : close g0 h0 =
        ({ g0 with midiInMap := umTouch g0.midiInMap h0.deviceName none }, h0) := by
      rcases hh with h | h
      · exact close_negative_id g0 h0 h
      · exact close_null g0 h0 h
    rw [hc]
    exact ⟨rfl, rfl, fun k => find_touch g0 h0.deviceName k⟩
  have hfirst : (close g self).2.id < 0 ∨
      (close g self).1.find (close g self).2.deviceName = none := by
    by_cases hid : self.id < 0
    · left
      rw [close_negative_id g self hid]; exact hid
    · cases hf : g.find self.deviceName with
      | none =>
        right
        rw [close_null g self hf, find_touch]; exact hf
      | some a =>
        left
        have hreg := find_eq_some g _ a hf
        obtain ⟨c1, _⟩ := close_live g self a hreg (by omega)
        rw [c1]; simp
  obtain ⟨r1, r2, r3⟩ := hsecond (close g self).1 (close g self).2 hfirst
  refine ⟨r1, r2, r3, ?_⟩
  intro hid _
  exact hsecond g self (Or.inl (by rw [hid]; decide))

/-- Witness for C9 (amended): the unsubscribed case at program start. -/
theorem close_idempotent_on_live_registry_witness :
    ( MidiIO.new false).id = -1 ∧ getDeviceName ( MidiIO.new false) = "" ∧
    (close Global.init ( MidiIO.new false)).2 = MidiIO.new false ∧
    (close Global.init ( MidiIO.new false)).1.heap = Global.init.heap ∧
    ∀ k, (close Global.init ( MidiIO.new false)).1.find k = Global.init.find k :=
  ⟨rfl, rfl, (close_idempotent_on_live_registry Global.init ( MidiIO.new false)).2.2.2 rfl rfl⟩

/-! ## C10: what one poll takes from the transport -/

/-- C10 (amended). A subscribed handle (multiplexer at `a`, own message queue `q`,
stamp queue at least as long) polls once. The call returns and takes exactly the
oldest buffered event from the transport, if there is one: the buffer afterwards is
its tail, so of m >= 1 buffered events m - 1 stay buffered. The payload of that
event, when non-empty, has been appended to the queue of every id that has one,
the caller included; the oldest message of the caller's queue is then popped and
returned (empty bytes when there is none). -/
theorem getMessage_takes_one_event (g : Global) (self : MidiIO) (msg : Msg) (a : Nat)
    (q : List Msg)
    (hreg : g.midiInMap self.deviceName = some (some a))
    (hq : (g.heap a).idMessagesMap self.id = some q)
    (hcov : stampsCover (g.heap a) self.id) :
    ∃ g1 st, getMessage g self msg = some (g1, (q ++ fanned (g.heap a)).headD [], st) ∧
      (g1.heap a).buffer = (g.heap a).buffer.tail ∧
      (g1.heap a).buffer.length = (g.heap a).buffer.length - 1 ∧
      (g1.heap a).idMessagesMap self.id = some (q ++ fanned (g.heap a)).tail ∧
      (∀ k, k ≠ self.id →
        (g1.heap a).idMessagesMap k =
          ((g.heap a).idMessagesMap k).map (fun x => x ++ fanned (g.heap a))) ∧
      (∀ e rest, (g.heap a).buffer = e :: rest → e.2 ≠ [] → fanned (g.heap a) = [e.2]) ∧
      ((g.heap a).buffer = [] → fanned (g.heap a) = []) := by
  obtain ⟨g1, st, h1, _, h3, h4, h5, _⟩ := getMessage_live g self msg a q hreg hq hcov
  refine ⟨g1, st, h1, h3, ?_, h4, h5, ?_, ?_⟩
  · rw [h3]; simp
  · intro e rest hb he
    have : 0 < e.2.length := List.length_pos.mpr he
    simp [fanned, MidiInWrapper.rtMsg, hb, this]
  · intro hb
    simp [fanned, MidiInWrapper.rtMsg, hb]

/-- Witness for C10 (amended): the sole subscriber of D1 polls with two events buffered. -/
theorem getMessage_takes_one_event_witness :
    ∃ g1 st, getMessage oneOnD1TwoEvents.g (oneOnD1TwoEvents.handles 0) [] =
        some (g1, (([] : List Msg) ++ fanned (oneOnD1TwoEvents.g.heap 0)).headD [], st) ∧
      (g1.heap 0).buffer = (oneOnD1TwoEvents.g.heap 0).buffer.tail ∧
      (g1.heap 0).buffer.length = (oneOnD1TwoEvents.g.heap 0).buffer.length - 1 ∧
      (g1.heap 0).idMessagesMap (oneOnD1TwoEvents.handles 0).id =
        some (([] : List Msg) ++ fanned (oneOnD1TwoEvents.g.heap 0)).tail ∧
      (∀ k, k ≠ (oneOnD1TwoEvents.handles 0).id →
        (g1.heap 0).idMessagesMap k =
          ((oneOnD1TwoEvents.g.heap 0).idMessagesMap k).map
            (fun x => x ++ fanned (oneOnD1TwoEvents.g.heap 0))) ∧
      (∀ e rest, (oneOnD1TwoEvents.g.heap 0).buffer = e :: rest → e.2 ≠ [] →
        fanned (oneOnD1TwoEvents.g.heap 0) = [e.2]) ∧
      ((oneOnD1TwoEvents.g.heap 0).buffer = [] → fanned (oneOnD1TwoEvents.g.heap 0) = []) :=
  getMessage_takes_one_event oneOnD1TwoEvents.g (oneOnD1TwoEvents.handles 0) [] 0 []
    (by decide) (by decide) (by unfold stampsCover; decide)

/-! ## Preferences and configuration -/

theorem subscribe_null (n : String) (g : Global) (self : MidiIO)
    (h : g.find n = none) : subscribe n g self = none := by
  have h2 : umAt g.midiInMap n none = none := h
  unfold subscribe
  by_cases hig : (!self.ignore_midiTime || !self.ignore_midiTime || !self.ignore_midiSense) = true
  · simp only [hig, if_true, h2]
  · simp only [hig, Bool.false_eq_true, if_false, h2]

/-- The ignore policy after subscribing through a live registry entry. -/
theorem subscribe_ignore (n : String) (g : Global) (self : MidiIO) (a : Nat)
    (hreg : g.midiInMap n = some (some a)) :
    ∃ g1 h1, subscribe n g self = some (g1, h1) ∧
      ((!self.ignore_midiTime || !self.ignore_midiTime || !self.ignore_midiSense) = true →
        (g1.heap a).ignore =
          (self.ignore_midiSysex, self.ignore_midiTime, self.ignore_midiSense)) ∧
      ((!self.ignore_midiTime || !self.ignore_midiTime || !self.ignore_midiSense) = false →
        (g1.heap a).ignore = (g.heap a).ignore) := by
  unfold subscribe
  by_cases hig : (!self.ignore_midiTime || !self.ignore_midiTime || !self.ignore_midiSense) = true
  · simp only [hig, if_true, umAt_of_eq _ _ _ _ hreg, heapSet_same, MidiInWrapper.add,
      MidiInWrapper.ignoreTypes]
    refine ⟨_, _, rfl, ?_, ?_⟩
    · intro _
      simp [heapSet]
    · intro h; simp at h
  · simp only [hig, Bool.false_eq_true, if_false, umAt_of_eq _ _ _ _ hreg, MidiInWrapper.add]
    refine ⟨_, _, rfl, ?_, ?_⟩
    · intro h; simp at h
    · intro _
      simp [heapSet]

/-! ## C14: the ignore policy and later subscribers -/

/-- C14 (amended). An unsubscribed handle with the preferences (sysex, time, sense)
opens a device that already has a live multiplexer (at `a`). The call returns; when
the handle does not ignore timing or does not ignore sensing, `ignoreTypes` is called
again and the policy of the device becomes the preferences of this later subscriber;
when the handle ignores all three categories the policy stays what it was. -/
theorem later_subscriber_ignore_policy (t : Transport) (n : String) (g : Global)
    (self : MidiIO) (a : Nat)
    (hreg : g.midiInMap n = some (some a))
    (hid : self.id = -1) (hdn : getDeviceName self = "") :
    ∃ g1 h1, openDevice t n g self = some (g1, h1) ∧
      (self.ignore_midiTime = false ∨ self.ignore_midiSense = false →
        (g1.heap a).ignore =
          (self.ignore_midiSysex, self.ignore_midiTime, self.ignore_midiSense)) ∧
      (self.ignore_midiSysex = true ∧ self.ignore_midiTime = true ∧
          self.ignore_midiSense = true →
        (g1.heap a).ignore = (g.heap a).ignore) := by
  obtain ⟨g1, h1, hsub, hon, hoff⟩ := subscribe_ignore n g self a hreg
  refine ⟨g1, h1, ?_, ?_, ?_⟩
  · rw [openDevice_unsub_live t n g self a hid hdn hreg]; exact hsub
  · intro h
    apply hon
    rcases h with h | h
    · simp [h]
    · simp [h]
  · intro ⟨_, h2, h3⟩
    apply hoff
    simp [h2, h3]

/-- Witness for C14 (amended): a handle that wants timing messages joins D1. -/
theorem later_subscriber_ignore_policy_witness :
    ∃ g1 h1, openDevice demoTransport "D1" oneOnD1.g clockListener = some (g1, h1) ∧
      (clockListener.ignore_midiTime = false ∨ clockListener.ignore_midiSense = false →
        (g1.heap 0).ignore = (clockListener.ignore_midiSysex, clockListener.ignore_midiTime,
          clockListener.ignore_midiSense)) ∧
      (clockListener.ignore_midiSysex = true ∧ clockListener.ignore_midiTime = true ∧
          clockListener.ignore_midiSense = true →
        (g1.heap 0).ignore = (oneOnD1.g.heap 0).ignore) :=
  later_subscriber_ignore_policy demoTransport "D1" oneOnD1.g clockListener 0 (by decide)
    (by decide) (by decide)

theorem close_channel (g : Global) (self : MidiIO) :
    (close g self).2.channel = self.channel := by
  unfold close
  cases umAt g.midiInMap self.deviceName none with
  | none => rfl
  | some a =>
    simp only []
    split_ifs <;> rfl

theorem subscribe_channel (n : String) (g g1 : Global) (self h1 : MidiIO)
    (h : subscribe n g self = some (g1, h1)) : h1.channel = self.channel := by
  cases hf : g.find n with
  | none => rw [subscribe_null n g self hf] at h; cases h
  | some a =>
    obtain ⟨g2, hs, _⟩ := subscribe_live n g self a (find_eq_some g n a hf)
    rw [hs] at h
    cases h
    rfl

/-- The three ways in which `openDevice` returns. -/
theorem openDevice_eq (t : Transport) (n : String) (g : Global) (self : MidiIO) :
    openDevice t n g self =
      match umAt g.midiInMap n none with
      | some _ => subscribe n (closedFirst n g self).1 (closedFirst n g self).2
      | none =>
        if (tryCreate t n (closedFirst n g self).1).2 = true then
          some ((tryCreate t n (closedFirst n g self).1).1, (closedFirst n g self).2)
        else subscribe n (tryCreate t n (closedFirst n g self).1).1 (closedFirst n g self).2 := by
  rfl

theorem closedFirst_channel (n : String) (g : Global) (self : MidiIO) :
    (closedFirst n g self).2.channel = self.channel := by
  unfold closedFirst
  split_ifs
  · exact close_channel _ _
  · rfl

theorem openDevice_channel (t : Transport) (n : String) (g g1 : Global) (self h1 : MidiIO)
    (h : openDevice t n g self = some (g1, h1)) : h1.channel = self.channel := by
  rw [openDevice_eq] at h
  cases hmw : umAt g.midiInMap n none with
  | some b =>
    simp only [hmw] at h
    rw [subscribe_channel n _ g1 _ h1 h]
    exact closedFirst_channel n g self
  | none =>
    simp only [hmw] at h
    by_cases hr : (tryCreate t n (closedFirst n g self).1).2 = true
    · simp only [hr, if_true] at h
      have h2 : h1 = (closedFirst n g self).2 := by
        have := Option.some.inj h
        exact (congrArg Prod.snd this).symm
      rw [h2]
      exact closedFirst_channel n g self
    · simp only [hr, if_false] at h
      rw [subscribe_channel n _ g1 _ h1 h]
      exact closedFirst_channel n g self

/-- An unsubscribed handle opening any name with a transport that raises no error ends
up subscribed under that name. -/
theorem openDevice_unsub_ok (t : Transport) (n : String) (g : Global) (self : MidiIO)
    (hok : t.outcome = RtOutcome.ok) (hid : self.id = -1) (hdn : self.deviceName = "") :
    ∃ g1 i, openDevice t n g self = some (g1, { self with deviceName := n, id := i }) := by
  cases hf : g.find n with
  | none =>
    obtain ⟨g1, h, _⟩ := openDevice_unsub_create t n g self hid hdn hf hok
    exact ⟨g1, 1, h⟩
  | some a =>
    have hreg := find_eq_some g n a hf
    obtain ⟨g1, h, _⟩ := subscribe_live n g self a hreg
    exact ⟨g1, _, by rw [openDevice_unsub_live t n g self a hid hdn hreg]; exact h⟩

/-! ## C15: configuration round trip -/

/-- C15. For a handle with a non-empty device name and any channel, the object that
`addBaseJson` produces holds that name under interfaceName and that channel under
channel; `baseFromJson` with it on an unsubscribed handle, the transport raising no
error, returns and leaves that handle with the same device name and channel. With
an object lacking interfaceName, `baseFromJson` leaves the state, the id and the
device name unchanged (nothing is opened); with an object lacking channel it
leaves the channel unchanged. -/
theorem config_round_trip (t : Transport) (g : Global) (self fresh : MidiIO) (rootJ : JObj)
    (hok : t.outcome = RtOutcome.ok) (hn : getDeviceName self ≠ "")
    (hid : fresh.id = -1) (hdn : getDeviceName fresh = "") :
    addBaseJson self rootJ "interfaceName" = some (JVal.str (getDeviceName self)) ∧
    addBaseJson self rootJ "channel" = some (JVal.int self.channel) ∧
    (∃ g1 h1, baseFromJson t (addBaseJson self rootJ) g fresh = some (g1, h1) ∧
      getDeviceName h1 = getDeviceName self ∧ h1.channel = self.channel) ∧
    (∀ (obj : JObj) (h : MidiIO), obj "interfaceName" = none →
      ∃ h1, baseFromJson t obj g h = some (g, h1) ∧ h1.id = h.id ∧
        getDeviceName h1 = getDeviceName h) ∧
    (∀ (obj : JObj) (h : MidiIO) (g1 : Global) (h1 : MidiIO), obj "channel" = none →
      baseFromJson t obj g h = some (g1, h1) → h1.channel = h.channel) := by
  have hn2 : self.deviceName ≠ "" := hn
  have hA : addBaseJson self rootJ "interfaceName" = some (JVal.str self.deviceName) := by
    simp [addBaseJson, hn2, umInsert]
  have hB : addBaseJson self rootJ "channel" = some (JVal.int self.channel) := by
    simp [addBaseJson, hn2, umInsert]
  refine ⟨hA, hB, ?_, ?_, ?_⟩
  · obtain ⟨g1, i, hopen⟩ := openDevice_unsub_ok t self.deviceName g fresh hok hid hdn
    refine ⟨g1, setChannel { fresh with deviceName := self.deviceName, id := i } self.channel,
      ?_, rfl, rfl⟩
    unfold baseFromJson
    simp only [hA, hB, json_string_value, json_integer_value, hopen]
  · intro obj h hobj
    unfold baseFromJson
    simp only [hobj]
    cases obj "channel" with
    | none => exact ⟨h, rfl, rfl, rfl⟩
    | some v => exact ⟨setChannel h (json_integer_value v), rfl, rfl, rfl⟩
  · intro obj h g1 h1 hobj hres
    unfold baseFromJson at hres
    simp only [hobj] at hres
    cases hi : obj "interfaceName" with
    | none =>
      simp only [hi] at hres
      have h2 : h = h1 := congrArg Prod.snd (Option.some.inj hres)
      rw [h2]
    | some v =>
      simp only [hi] at hres
      cases hv : json_string_value v with
      | none => simp only [hv] at hres; cases hres
      | some name =>
        simp only [hv] at hres
        cases ho : openDevice t name g h with
        | none => simp only [ho] at hres; cases hres
        | some c =>
          simp only [ho] at hres
          have h2 : c = (g1, h1) := Option.some.inj hres
          rw [h2] at ho
          exact openDevice_channel t name g g1 h h1 ho

/-- Witness for C15: the configuration of handle 0 on D1, channel 9, loaded at program start. -/
theorem config_round_trip_witness :
    addBaseJson (setChannel (oneOnD1.handles 0) 9) (fun _ => none) "interfaceName" =
      some (JVal.str (getDeviceName (setChannel (oneOnD1.handles 0) 9))) ∧
    addBaseJson (setChannel (oneOnD1.handles 0) 9) (fun _ => none) "channel" =
      some (JVal.int (setChannel (oneOnD1.handles 0) 9).channel) ∧
    (∃ g1 h1, baseFromJson demoTransport
        (addBaseJson (setChannel (oneOnD1.handles 0) 9) (fun _ => none)) Global.init
        ( MidiIO.new false) = some (g1, h1) ∧
      getDeviceName h1 = getDeviceName (setChannel (oneOnD1.handles 0) 9) ∧
      h1.channel = (setChannel (oneOnD1.handles 0) 9).channel) ∧
    (∀ (obj : JObj) (h : MidiIO), obj "interfaceName" = none →
      ∃ h1, baseFromJson demoTransport obj Global.init h = some (Global.init, h1) ∧
        h1.id = h.id ∧ getDeviceName h1 = getDeviceName h) ∧
    (∀ (obj : JObj) (h : MidiIO) (g1 : Global) (h1 : MidiIO), obj "channel" = none →
      baseFromJson demoTransport obj Global.init h = some (g1, h1) → h1.channel = h.channel) :=
  config_round_trip demoTransport Global.init (setChannel (oneOnD1.handles 0) 9)
    ( MidiIO.new false) (fun _ => none) rfl (by decide) rfl rfl

/-! ## Reachable states -/

theorem fanOut_subscribers (w : MidiInWrapper) (m : Msg) (st : Stamp) :
    (fanOut w m st).subscribers = w.subscribers := rfl

/-- A poll changes neither the registry (up to null entries) nor any subscriber count. -/
theorem getMessage_frame (g g1 : Global) (self : MidiIO) (msg m : Msg) (st : Stamp)
    (h : getMessage g self msg = some (g1, m, st)) :
    g1.nextAddr = g.nextAddr ∧ (∀ k, g1.find k = g.find k) ∧
      (∀ b, (g1.heap b).subscribers = (g.heap b).subscribers) := by
  unfold getMessage at h
  cases hmw : umAt g.midiInMap self.deviceName none with
  | none =>
    simp only [hmw] at h
    have h1 : g1 = { g with midiInMap := umTouch g.midiInMap self.deviceName none } :=
      (congrArg Prod.fst (Option.some.inj h)).symm
    rw [h1]
    exact ⟨rfl, fun k => find_touch g _ k, fun _ => rfl⟩
  | some a =>
    simp only [hmw] at h
    have hsub : ∀ (w : MidiInWrapper), w.subscribers = (g.heap a).subscribers →
        ∀ b, (heapSet g.heap a w b).subscribers = (g.heap b).subscribers := by
      intro w hw b
      by_cases hb : b = a
      · subst hb; simp [heapSet, hw]
      · simp [heapSet, hb]
    have hw2 : (if (g.heap a).rtMsg.length > 0 then
        fanOut (g.heap a).rtPop (g.heap a).rtMsg (g.heap a).rtStamp
        else (g.heap a).rtPop).subscribers = (g.heap a).subscribers := by
      split_ifs <;> rfl
    split at h
    · have h1 : _ = g1 := congrArg Prod.fst (Option.some.inj h)
      rw [← h1]
      exact ⟨rfl, fun k => find_touch g _ k, hsub _ hw2⟩
    · split at h
      · cases h
      · have h1 : _ = g1 := congrArg Prod.fst (Option.some.inj h)
        rw [← h1]
        exact ⟨rfl, fun k => find_touch g _ k, hsub _ hw2⟩

theorem RegistryOk_init : RegistryOk Global.init := by
  constructor
  · intro name a h
    simp [Global.find, umAt, Global.init] at h
  · intro n1 n2 a h
    simp [Global.find, umAt, Global.init] at h

/-- A state with the same lookups, the same allocation bound and the same
subscriber counts is as well-formed as the state it came from. -/
theorem RegistryOk_of_frame (g g1 : Global) (hok : RegistryOk g)
    (hnext : g1.nextAddr = g.nextAddr) (hfind : ∀ k, g1.find k = g.find k)
    (hsubs : ∀ b, (g1.heap b).subscribers = (g.heap b).subscribers) : RegistryOk g1 := by
  obtain ⟨h1, h2⟩ := hok
  constructor
  · intro name a h
    rw [hfind] at h
    rw [hnext, hsubs]
    exact h1 name a h
  · intro n1 n2 a ha hb
    rw [hfind] at ha hb
    exact h2 n1 n2 a ha hb

theorem find_eq_none (g : Global) (k : String) (h : g.midiInMap k = none) :
    g.find k = none := by
  unfold Global.find umAt
  rw [h]

theorem RegistryOk_close (g : Global) (self : MidiIO) (hok : RegistryOk g) :
    RegistryOk (close g self).1 ∧ (close g self).1.nextAddr = g.nextAddr ∧
      ∀ k b, (close g self).1.find k = some b → g.find k = some b := by
  have htouch : ∀ g0 : Global, RegistryOk g0 →
      RegistryOk { g0 with midiInMap := umTouch g0.midiInMap self.deviceName none } := by
    intro g0 h0
    exact RegistryOk_of_frame g0 _ h0 rfl (fun k => find_touch g0 _ k) (fun _ => rfl)
  by_cases hid : self.id < 0
  · rw [close_negative_id g self hid]
    refine ⟨htouch g hok, rfl, ?_⟩
    intro k b h
    rw [find_touch] at h; exact h
  · cases hf : g.find self.deviceName with
    | none =>
      rw [close_null g self hf]
      refine ⟨htouch g hok, rfl, ?_⟩
      intro k b h
      rw [find_touch] at h; exact h
    | some a =>
      have hreg := find_eq_some g _ a hf
      obtain ⟨_, c2, c3, c4, _, _, _, _, c9, c10, c11⟩ := close_live g self a hreg (by omega)
      obtain ⟨h1, h2⟩ := hok
      have hsubfind : ∀ k b, (close g self).1.find k = some b → g.find k = some b := by
        intro k b h
        by_cases hk : k = self.deviceName
        · subst hk
          by_cases h0 : (g.heap a).subscribers - 1 = 0
          · rw [find_eq_none _ _ (c10 h0).1] at h
            cases h
          · unfold Global.find umAt at h ⊢
            rw [(c11 h0).1] at h
            exact h
        · unfold Global.find umAt at h ⊢
          rw [c9 k hk] at h
          exact h
      refine ⟨⟨?_, ?_⟩, c2, hsubfind⟩
      · intro name b h
        have hb := hsubfind name b h
        obtain ⟨hlt, hge⟩ := h1 name b hb
        rw [c2]
        refine ⟨hlt, ?_⟩
        by_cases hba : b = a
        · subst hba
          have hname : name = self.deviceName := h2 name self.deviceName b hb hf
          subst hname
          by_cases h0 : (g.heap b).subscribers - 1 = 0
          · rw [find_eq_none _ _ (c10 h0).1] at h
            cases h
          · rw [c4]
            omega
        · rw [c3 b hba]; exact hge
      · intro n1 n2 b ha hb
        exact h2 n1 n2 b (hsubfind n1 b ha) (hsubfind n2 b hb)

theorem RegistryOk_closedFirst (n : String) (g : Global) (self : MidiIO) (hok : RegistryOk g) :
    RegistryOk (closedFirst n g self).1 ∧ (closedFirst n g self).1.nextAddr = g.nextAddr ∧
      ∀ k b, (closedFirst n g self).1.find k = some b → g.find k = some b := by
  have ht : RegistryOk { g with midiInMap := umTouch g.midiInMap n none } :=
    RegistryOk_of_frame g _ hok rfl (fun k => find_touch g _ k) (fun _ => rfl)
  unfold closedFirst
  split_ifs
  · obtain ⟨r1, r2, r3⟩ := RegistryOk_close _ self ht
    refine ⟨r1, r2, ?_⟩
    intro k b h
    have := r3 k b h
    rw [find_touch] at this
    exact this
  · refine ⟨ht, rfl, ?_⟩
    intro k b h
    rw [find_touch] at h
    exact h

theorem RegistryOk_subscribe (n : String) (g g1 : Global) (self h1 : MidiIO)
    (hok : RegistryOk g) (h : subscribe n g self = some (g1, h1)) : RegistryOk g1 := by
  cases hf : g.find n with
  | none => rw [subscribe_null n g self hf] at h; cases h
  | some a =>
    obtain ⟨g2, hs, s2, s3, s4, _, _, _, s8, _⟩ :=
      subscribe_live n g self a (find_eq_some g n a hf)
    rw [hs] at h
    have hg : g2 = g1 := congrArg Prod.fst (Option.some.inj h)
    subst hg
    obtain ⟨p1, p2⟩ := hok
    have hfind : ∀ k, g2.find k = g.find k := by
      intro k
      unfold Global.find
      rw [s2]
    constructor
    · intro name b hb
      rw [hfind] at hb
      obtain ⟨hlt, hge⟩ := p1 name b hb
      rw [s3]
      refine ⟨hlt, ?_⟩
      by_cases hba : b = a
      · subst hba
        rw [s8]; omega
      · rw [s4 b hba]; exact hge
    · intro n1 n2 b ha hb
      rw [hfind] at ha hb
      exact p2 n1 n2 b ha hb

theorem RegistryOk_create_subscribe (t : Transport) (n : String) (g g1 : Global)
    (self h1 : MidiIO) (hok : RegistryOk g) (hnull : g.find n = none)
    (ho : t.outcome = RtOutcome.ok)
    (h : subscribe n (tryCreate t n g).1 self = some (g1, h1)) : RegistryOk g1 := by
  have hmap : (tryCreate t n g).1.midiInMap = umInsert g.midiInMap n (some g.nextAddr) := by
    simp [tryCreate, ho]
  have hnext : (tryCreate t n g).1.nextAddr = g.nextAddr + 1 := by
    simp [tryCreate, ho]
  have hheap : ∀ b, b ≠ g.nextAddr → (tryCreate t n g).1.heap b = g.heap b := by
    intro b hb
    simp [tryCreate, ho, heapSet, hb]
  have hsubs0 : ((tryCreate t n g).1.heap g.nextAddr).subscribers = 0 := by
    simp only [tryCreate, ho, heapSet_same]
    cases findPort n t.ports 0 <;> rfl
  have hreg : (tryCreate t n g).1.midiInMap n = some (some g.nextAddr) := by
    rw [hmap]; simp [umInsert]
  obtain ⟨g2, hs, s2, s3, s4, _, _, _, s8, _⟩ :=
    subscribe_live n (tryCreate t n g).1 self g.nextAddr hreg
  rw [hs] at h
  have hg : g2 = g1 := congrArg Prod.fst (Option.some.inj h)
  subst hg
  obtain ⟨p1, p2⟩ := hok
  have hfindn : g2.find n = some g.nextAddr := by
    unfold Global.find umAt
    rw [s2, hreg]
  have hfindk : ∀ k, k ≠ n → g2.find k = g.find k := by
    intro k hk
    unfold Global.find umAt
    rw [s2, hmap]
    simp [umInsert, hk]
  have hold : ∀ k b, k ≠ n → g2.find k = some b → b < g.nextAddr ∧ 1 ≤ (g.heap b).subscribers := by
    intro k b hk hb
    rw [hfindk k hk] at hb
    exact p1 k b hb
  constructor
  · intro name b hb
    rw [s3, hnext]
    by_cases hk : name = n
    · subst hk
      rw [hfindn] at hb
      have hb2 : g.nextAddr = b := Option.some.inj hb
      subst hb2
      refine ⟨by omega, ?_⟩
      rw [s8, hsubs0]; norm_num
    · obtain ⟨hlt, hge⟩ := hold name b hk hb
      have hbn : b ≠ g.nextAddr := by omega
      refine ⟨by omega, ?_⟩
      rw [s4 b hbn, hheap b hbn]; exact hge
  · intro n1 n2 b ha hb
    by_cases h1n : n1 = n
    · by_cases h2n : n2 = n
      · rw [h1n, h2n]
      · subst h1n
        rw [hfindn] at ha
        have : g.nextAddr = b := Option.some.inj ha
        have := (hold n2 b h2n hb).1
        omega
    · by_cases h2n : n2 = n
      · subst h2n
        rw [hfindn] at hb
        have : g.nextAddr = b := Option.some.inj hb
        have := (hold n1 b h1n ha).1
        omega
      · rw [hfindk n1 h1n] at ha
        rw [hfindk n2 h2n] at hb
        exact p2 n1 n2 b ha hb

theorem RegistryOk_openDevice (t : Transport) (n : String) (g g1 : Global) (self h1 : MidiIO)
    (hok : RegistryOk g) (hfail : t.outcome ≠ RtOutcome.throwInPortLoop)
    (h : openDevice t n g self = some (g1, h1)) : RegistryOk g1 := by
  obtain ⟨c1, _, c3⟩ := RegistryOk_closedFirst n g self hok
  rw [openDevice_eq] at h
  cases hmw : umAt g.midiInMap n none with
  | some b =>
    simp only [hmw] at h
    exact RegistryOk_subscribe n _ g1 _ h1 c1 h
  | none =>
    simp only [hmw] at h
    have hnull : (closedFirst n g self).1.find n = none := by
      cases hc : (closedFirst n g self).1.find n with
      | none => rfl
      | some b =>
        have := c3 n b hc
        have h2 : g.find n = none := hmw
        rw [h2] at this
        cases this
    cases ho : t.outcome with
    | throwInPortLoop => exact absurd ho hfail
    | throwInCtor =>
      have h2 : tryCreate t n (closedFirst n g self).1 = ((closedFirst n g self).1, true) := by
        simp [tryCreate, ho]
      simp only [h2, if_true] at h
      have hg : (closedFirst n g self).1 = g1 := congrArg Prod.fst (Option.some.inj h)
      rw [← hg]
      exact c1
    | ok =>
      have h2 : (tryCreate t n (closedFirst n g self).1).2 = false := by
        simp [tryCreate, ho]
      simp only [h2, Bool.false_eq_true, if_false] at h
      exact RegistryOk_create_subscribe t n _ g1 _ h1 c1 hnull ho h

theorem RegistryOk_step (s : Sys) (act : Act) (r : Sys × List Poll) (hok : RegistryOk s.g)
    (hact : noPortLoopFailure act = true) (h : step s act = some r) : RegistryOk r.1.g := by
  cases act with
  | openDevice t name i =>
    simp only [noPortLoopFailure, decide_eq_true_eq] at hact
    simp only [step, Sys.openDevice, Option.map_map] at h
    cases ho : Rack.openDevice t name s.g (s.handles i) with
    | none => rw [ho] at h; cases h
    | some c =>
      rw [ho] at h
      have hr : _ = r := Option.some.inj h
      rw [← hr]
      exact RegistryOk_openDevice t name s.g c.1 (s.handles i) c.2 hok hact ho
  | close i =>
    simp only [step] at h
    have hr : _ = r := Option.some.inj h
    rw [← hr]
    exact (RegistryOk_close s.g (s.handles i) hok).1
  | getMessage i msg =>
    simp only [step, Sys.getMessage, Option.map_map] at h
    cases ho : Rack.getMessage s.g (s.handles i) msg with
    | none => rw [ho] at h; cases h
    | some c =>
      rw [ho] at h
      have hr : _ = r := Option.some.inj h
      rw [← hr]
      obtain ⟨f1, f2, f3⟩ := getMessage_frame s.g c.1 (s.handles i) msg c.2.1 c.2.2 ho
      exact RegistryOk_of_frame s.g c.1 hok f1 f2 f3
  | arrive a e =>
    simp only [step] at h
    have hr : _ = r := Option.some.inj h
    rw [← hr]
    show RegistryOk (Sys.arrive a e s).g
    refine RegistryOk_of_frame s.g _ hok rfl (fun _ => rfl) ?_
    intro b
    show (heapSet s.g.heap a _ b).subscribers = _
    by_cases hb : b = a
    · subst hb; simp [heapSet]
    · simp [heapSet, hb]

theorem RegistryOk_run (acts : List Act) (s : Sys) (hok : RegistryOk s.g)
    (hacts : ∀ act ∈ acts, noPortLoopFailure act = true) :
    ∀ r, run acts s = some r → RegistryOk r.1.g := by
  induction acts using List.reverseRecOn with
  | nil =>
    intro r h
    have hr : _ = r := Option.some.inj h
    rw [← hr]; exact hok
  | append_singleton acts act ih =>
    intro r h
    rw [run_snoc] at h
    cases hrun : run acts s with
    | none => rw [hrun] at h; cases h
    | some st =>
      rw [hrun] at h
      change (step st.1 act).map (fun x => (x.1, st.2 ++ x.2)) = some r at h
      cases hstep : step st.1 act with
      | none => rw [hstep] at h; cases h
      | some x =>
        rw [hstep] at h
        have hr : (x.1, st.2 ++ x.2) = r := Option.some.inj h
        rw [← hr]
        exact RegistryOk_step st.1 act x (ih (fun a ha => hacts a (by simp [ha])) st hrun)
          (hacts act (by simp)) hstep

/-! ## C11: the registry invariant -/

/-- C11 (amended). In every state reached from program start (empty registry, fresh
handles) by any sequence of `openDevice`, `close` and `getMessage` calls on any
handles and of event arrivals, in which no `openDevice` had its port loop throw,
every name that `midiInMap` maps to a non-null multiplexer maps to one with at
least one subscriber, and no other name maps to the same multiplexer. -/
theorem registry_entries_have_subscribers (acts : List Act) (r : Sys × List Poll)
    (hacts : ∀ act ∈ acts, noPortLoopFailure act = true)
    (hrun : run acts Sys.init = some r) :
    ∀ name a, r.1.g.midiInMap name = some (some a) →
      1 ≤ (r.1.g.heap a).subscribers ∧
      ∀ other, r.1.g.midiInMap other = some (some a) → other = name := by
  have hok := RegistryOk_run acts Sys.init RegistryOk_init hacts r hrun
  intro name a h
  have hf : r.1.g.find name = some a := by
    unfold Global.find umAt; rw [h]
  refine ⟨(hok.1 name a hf).2, ?_⟩
  intro other ho
  have hf2 : r.1.g.find other = some a := by
    unfold Global.find umAt; rw [ho]
  exact hok.2 other name a hf2 hf

/-- Witness for C11 (amended): two handles open D1, one closes, a subscriber and a
fresh handle poll. -/
theorem registry_entries_have_subscribers_witness :
    (run [Act.openDevice demoTransport "D1" 0, Act.openDevice demoTransport "D1" 1,
        Act.close 0, Act.getMessage 1 [], Act.getMessage 2 []] Sys.init).isSome = true ∧
    ∀ name a, ((run [Act.openDevice demoTransport "D1" 0, Act.openDevice demoTransport "D1" 1,
        Act.close 0, Act.getMessage 1 [], Act.getMessage 2 []] Sys.init).getD
          (Sys.init, [])).1.g.midiInMap name = some (some a) →
      1 ≤ (((run [Act.openDevice demoTransport "D1" 0, Act.openDevice demoTransport "D1" 1,
        Act.close 0, Act.getMessage 1 [], Act.getMessage 2 []] Sys.init).getD
          (Sys.init, [])).1.g.heap a).subscribers ∧
      ∀ other, ((run [Act.openDevice demoTransport "D1" 0, Act.openDevice demoTransport "D1" 1,
        Act.close 0, Act.getMessage 1 [], Act.getMessage 2 []] Sys.init).getD
          (Sys.init, [])).1.g.midiInMap other = some (some a) → other = name :=
  ⟨by decide, registry_entries_have_subscribers
    [Act.openDevice demoTransport "D1" 0, Act.openDevice demoTransport "D1" 1,
      Act.close 0, Act.getMessage 1 [], Act.getMessage 2 []]
    ((run [Act.openDevice demoTransport "D1" 0, Act.openDevice demoTransport "D1" 1,
        Act.close 0, Act.getMessage 1 [], Act.getMessage 2 []] Sys.init).getD (Sys.init, []))
    (by decide) rfl⟩

/-! ## The code at concrete inputs -/

/-- C2 (code at the failing input). Handle 0 is the only subscriber of D1 and the
transport holds the events (100, 90 40 7F) and (102, 80 40 00). Two polls return
both payloads in order, but the second one comes with the stamp 100 of the first
event: the stamp queue is read at its front and never popped. -/
theorem getMessage_second_event_carries_first_stamp :
    (run [Act.getMessage 0 [], Act.getMessage 0 []] oneOnD1TwoEvents).map Prod.snd =
      some [(0, [144, 64, 127], 100), (0, [128, 64, 0], 100)] := by
  decide

/-- C5 (code at the failing input). Handle 0 is the only subscriber of the enumerated
device D1; its `openDevice("D1")` dereferences the null entry that
`midiInMap["D1"]` yields after `close()` has erased the key. -/
theorem openDevice_reopen_by_sole_subscriber_dereferences_null :
    getDeviceName (oneOnD1.handles 0) = "D1" ∧ isPortOpen (oneOnD1.handles 0) = true ∧
    (oneOnD1.g.heap 0).subscribers = 1 ∧
    (openDevice demoTransport "D1" oneOnD1.g (oneOnD1.handles 0)).isNone = true := by
  decide

/-- C6 (code at the failing input). At program start a fresh handle opens D1 and
the port loop throws: the registry then maps D1 to the new multiplexer (no
subscriber, no port open) although the key was absent before; a later
`openDevice("D1")` with a working transport subscribes to that multiplexer without
creating one or opening the port. -/
theorem openDevice_failed_open_keeps_registry_entry :
    Global.init.midiInMap "D1" = none ∧
    (openDevice failingTransport "D1" Global.init ( MidiIO.new false)).map
        (fun r => (r.1.midiInMap "D1", (r.1.heap 0).port, (r.1.heap 0).subscribers, r.2.id,
          r.2.deviceName)) = some (some (some 0), none, 0, -1, "") ∧
    ((openDevice failingTransport "D1" Global.init ( MidiIO.new false)).bind
        (fun r => openDevice demoTransport "D1" r.1 r.2)).map
        (fun r => (r.1.midiInMap "D1", (r.1.heap 0).port, r.1.nextAddr, r.2.id, r.2.deviceName)) =
      some (some (some 0), none, 1, 1, "D1") := by
  decide

/-- C4 (code at the failing input). Ghost is not among the port names the transport
enumerates. At program start a fresh handle (id -1, empty name) calls
`openDevice("Ghost")`, the transport raising no error: the port loop opens nothing,
yet the handle ends with the device name Ghost and the id 1, so `isPortOpen` is
true, subscribed to a multiplexer that is registered under Ghost without any open
port. A poll on it, the caller's vector holding 90 40 7F, answers through that
multiplexer (empty bytes), where a handle that is unsubscribed leaves the vector
alone. -/
theorem openDevice_unknown_name_subscribes :
    "Ghost" ∉ getDevices demoTransport ∧
    (( MidiIO.new false).id, getDeviceName ( MidiIO.new false)) = (-1, "") ∧
    (openDevice demoTransport "Ghost" Global.init ( MidiIO.new false)).map
        (fun r => (getDeviceName r.2, r.2.id, isPortOpen r.2)) = some ("Ghost", 1, true) ∧
    (openDevice demoTransport "Ghost" Global.init ( MidiIO.new false)).map
        (fun r => (r.1.midiInMap "Ghost", (r.1.heap 0).port, (r.1.heap 0).subscribers)) =
      some (some (some 0), none, 1) ∧
    ((openDevice demoTransport "Ghost" Global.init ( MidiIO.new false)).bind
        (fun r => getMessage r.1 r.2 [144, 64, 127])).map (fun r => r.2) = some ([], 0) ∧
    (getMessage Global.init ( MidiIO.new false) [144, 64, 127]).map (fun r => r.2) =
      some ([144, 64, 127], 0) := by
  decide

/-- C9 (counterexample). At program start `close()` on a fresh handle adds the key
of the empty name, mapped to null, to `midiInMap`. -/
theorem close_unsubscribed_inserts_null_key :
    ( MidiIO.new false).id = -1 ∧ ( MidiIO.new false).deviceName = "" ∧
    Global.init.midiInMap "" = none ∧
    (close Global.init ( MidiIO.new false)).1.midiInMap "" = some none := by
  decide

/-- C10 (counterexample). With two events buffered, one poll by the only subscriber
leaves the second event in the transport buffer and the caller's queue empty. -/
theorem getMessage_leaves_later_events_buffered :
    (oneOnD1TwoEvents.g.heap 0).buffer = [(100, [144, 64, 127]), (102, [128, 64, 0])] ∧
    (getMessage oneOnD1TwoEvents.g (oneOnD1TwoEvents.handles 0) []).map
        (fun r => ((r.1.heap 0).buffer, (r.1.heap 0).idMessagesMap 1, r.2.1)) =
      some ([(102, [128, 64, 0])], some [], [144, 64, 127]) := by
  decide

/-- C11 (counterexample). At program start `close()` on a fresh handle leaves the key
of the empty name in `midiInMap`, mapped to the null pointer. -/
theorem close_on_fresh_handle_registers_null :
    (run [Act.close 0] Sys.init).map (fun r => r.1.g.midiInMap "") = some (some none) := by
  decide

/-- C12 (code at the failing input). A fresh handle (id -1, empty name) polls at
program start with a vector that holds 90 40 7F: the call returns 0 and the vector
still holds 90 40 7F, since the early return of line 115 does not assign it. -/
theorem getMessage_unsubscribed_keeps_caller_buffer :
    ( MidiIO.new false).id = -1 ∧ getDeviceName ( MidiIO.new false) = "" ∧
    (getMessage Global.init ( MidiIO.new false) [144, 64, 127]).map (fun r => r.2) =
      some ([144, 64, 127], 0) := by
  decide

/-- C13 (code at the failing input). Handle 0 has called `openDevice("")`, so the
registry holds a multiplexer under the empty name. Handle 1 is fresh (id -1, empty
name); its `getMessage` finds that multiplexer and `idMessagesMap[id]` (line 127)
creates a queue for the id -1, which `add()` never handed out. -/
theorem getMessage_creates_queue_for_sentinel_id :
    (emptyEntryChosen.handles 1).id = -1 ∧ getDeviceName (emptyEntryChosen.handles 1) = "" ∧
    emptyEntryChosen.g.midiInMap "" = some (some 0) ∧
    (emptyEntryChosen.g.heap 0).idMessagesMap (-1) = none ∧
    (getMessage emptyEntryChosen.g (emptyEntryChosen.handles 1) []).map
        (fun r => (r.1.heap 0).idMessagesMap (-1)) = some (some []) := by
  decide

/-- C14 (counterexample). Handle 0 opened D1 first with the preferences (true, true,
true), which is the policy of the device. A second handle that does not ignore
timing opens D1: the policy is then (true, false, true). -/
theorem later_subscriber_replaces_ignore_policy :
    (oneOnD1.g.heap 0).ignore = (true, true, true) ∧
    (oneOnD1.handles 0).ignore_midiSysex = true ∧ (oneOnD1.handles 0).ignore_midiTime = true ∧
    (oneOnD1.handles 0).ignore_midiSense = true ∧
    (openDevice demoTransport "D1" oneOnD1.g clockListener).map
        (fun r => ((r.1.heap 0).ignore, (r.1.heap 0).subscribers)) =
      some ((true, false, true), 2) := by
  decide

/-- C16 (code at the failing input). A handle whose only non-default preference is
ignore_midiSysex = false is the first to open D1: the policy of the device is still
the default (true, true, true), as line 97 tests ignore_midiTime twice and
ignore_midiSysex never. -/
theorem first_subscriber_sysex_preference_not_applied :
    (sysexListener.ignore_midiSysex, sysexListener.ignore_midiTime,
      sysexListener.ignore_midiSense) = (false, true, true) ∧
    (openDevice demoTransport "D1" Global.init sysexListener).map
        (fun r => ((r.1.heap 0).ignore, (r.1.heap 0).subscribers, getDeviceName r.2)) =
      some ((true, true, true), 1, "D1") := by
  decide

/-- C17 (code at the failing input). A fresh handle calls `openDevice("")`, as the
empty first menu entry does: `isPortOpen` is true (id 1) while `getDeviceName` is
empty, and a multiplexer is registered under the empty name. -/
theorem openDevice_empty_name_port_open_without_name :
    (run [Act.openDevice demoTransport "" 0] Sys.init).map
        (fun r => (isPortOpen (r.1.handles 0), getDeviceName (r.1.handles 0),
          (r.1.handles 0).id, r.1.g.midiInMap "")) =
      some (true, "", 1, some (some 0)) := by
  decide

/-- C18 (code at the failing input). The only subscriber of D1 polls once with one
event buffered and receives it: afterwards its message queue is empty and its stamp
queue holds one stamp. -/
theorem stamp_queue_longer_after_poll :
    (run [Act.getMessage 0 []] oneOnD1OneEvent).map
        (fun r => (r.2, (r.1.g.heap 0).idMessagesMap 1, (r.1.g.heap 0).idStampsMap 1)) =
      some ([(0, [144, 64, 127], 100)], some [], some [100]) := by
  decide

end Rack
